import Mathlib

/-!
Shallow embedding of `scripts/check_wasm_dependency_policy.py`, the WASM
dependency policy gate.  Python strings are modelled as Lean `String`,
Python `int` as `Int`, JSON values as the inductive `JValue`, Python
exceptions as the `Except PError` monad, and UTC datetimes as `Int`
instants (the standard-library ISO-8601 parser is abstracted by a
`String → IsoParse` parameter).  Every definition is executable by kernel
reduction.
-/

namespace WasmDepPolicy

/-! ### Python string primitives

The string operations the script uses (`strip`, `split`, `replace`,
`startswith`, `endswith`, `int` on a digit string, `<` on strings) are
implemented by structural recursion on the character list.  Whitespace is
modelled by `Char.isWhitespace` (space, tab, CR, LF), which covers every
character the script can meet in `cargo tree` output. -/

/-- Model of Python `str.strip()` on a character list: drop whitespace from
both ends. -/
def stripChars (l : List Char) : List Char :=
  ((l.dropWhile Char.isWhitespace).reverse.dropWhile Char.isWhitespace).reverse

/-- Model of Python `str.strip()`. -/
def pyStrip (s : String) : String := String.mk (stripChars s.data)

/-- Token accumulator for whitespace `split`; `acc` holds the current token
reversed. -/
def splitWsChars : List Char → List Char → List (List Char)
  | [], [] => []
  | [], acc => [acc.reverse]
  | c :: cs, acc =>
    if c.isWhitespace then
      match acc with
      | [] => splitWsChars cs []
      | _ :: _ => acc.reverse :: splitWsChars cs []
    else splitWsChars cs (c :: acc)

/-- Model of Python `str.split()` with no argument: split on whitespace runs,
discarding empty tokens. -/
def pySplitWs (s : String) : List String := (splitWsChars s.data []).map String.mk

/-- Model of Python `str.replace(pat, "")` on character lists: remove every
non-overlapping occurrence of `pat`, scanning left to right.  The fuel is the
length of the scanned list, which bounds the recursion because a match
consumes at least one character of a non-empty pattern. -/
def removeAllFuel (pat : List Char) : Nat → List Char → List Char
  | _, [] => []
  | 0, l => l
  | fuel + 1, c :: cs =>
    if pat.isPrefixOf (c :: cs) && !pat.isEmpty then
      removeAllFuel pat fuel ((c :: cs).drop pat.length)
    else
      c :: removeAllFuel pat fuel cs

/-- Model of Python `str.replace(pat, "")`. -/
def pyRemoveAll (s pat : String) : String :=
  String.mk (removeAllFuel pat.data s.data.length s.data)

/-- Model of Python `str.startswith`. -/
def pyStartsWith (s pat : String) : Bool := pat.data.isPrefixOf s.data

/-- Model of Python `str.endswith`. -/
def pyEndsWith (s pat : String) : Bool := pat.data.isSuffixOf s.data

/-- Model of Python `int` on a non-empty string of decimal digits. -/
def digitsToNat (l : List Char) : Nat :=
  l.foldl (fun acc c => acc * 10 + (c.toNat - 48)) 0

/-- Strict comparison of characters by code point, as Python compares the
characters of strings. -/
def charLt (a b : Char) : Bool := decide (a.toNat < b.toNat)

/-- Generic strict lexicographic order on lists induced by a strict order on
elements; a proper prefix is smaller.  With `charLt` it is Python's `<` on
strings, and applied to itself it is Python's `<` on tuples of strings. -/
def lexLt (lt : α → α → Bool) [DecidableEq α] : List α → List α → Bool
  | _, [] => false
  | [], _ :: _ => true
  | a :: as, b :: bs => lt a b || (decide (a = b) && lexLt lt as bs)

/-- Python `<` on strings. -/
def pyStrLt (a b : String) : Bool := lexLt charLt a.data b.data

/-- Stable insertion of `a` into a list sorted by `le`: `a` goes in front of
the first element it compares `le` to. -/
def orderedInsertLe (le : α → α → Bool) (a : α) : List α → List α
  | [] => [a]
  | b :: bs => if le a b then a :: b :: bs else b :: orderedInsertLe le a bs

/-- Model of Python `sorted`: the stable ascending sort induced by the total
preorder `le`.  A stable ascending reordering of a list is unique, so
insertion sort yields exactly what `sorted` returns. -/
def pySorted (le : α → α → Bool) : List α → List α
  | [] => []
  | a :: as => orderedInsertLe le a (pySorted le as)

/-! ### Exceptions and JSON values -/

/-- Exceptions the script can raise.  `policyError` models the script's
`PolicyError` (a `ValueError` subclass); `valueError` models a plain
`ValueError`, e.g. from `datetime.fromisoformat` on a malformed string;
`runtimeError` models the `RuntimeError` raised when `cargo tree` fails.
The `__main__` guard catches only `policyError`. -/
inductive PError where
  | policyError (msg : String)
  | valueError (msg : String)
  | runtimeError (msg : String)
deriving DecidableEq, Repr

/-- JSON values as Python's `json.loads` produces them.  Python `bool` is a
subclass of `int`, so `isinstance(x, int)` accepts `jint` and `jbool`. -/
inductive JValue where
  | jstr (s : String)
  | jint (n : Int)
  | jbool (b : Bool)
  | jlist (xs : List JValue)
  | jobj (fields : List (String × JValue))
  | jnull

deriving instance DecidableEq for Except

/-- Model of Python `dict.get(key)` on a JSON object: `none` when the key is
absent.  JSON object keys are unique, so first-match lookup is exact. -/
def JValue.get : JValue → String → Option JValue
  | .jobj fields, key => (fields.find? (fun p => decide (p.1 = key))).map (fun p => p.2)
  | _, _ => none

/-- Python `isinstance(x, str)`, with the string value. -/
def JValue.asStr : JValue → Option String
  | .jstr s => some s
  | _ => none

/-- Python `isinstance(x, int)` (true for `bool` too), with the integer
value. -/
def JValue.asInt : JValue → Option Int
  | .jint n => some n
  | .jbool b => some (if b then 1 else 0)
  | _ => none

/-- Python truthiness `bool(x)` for JSON values. -/
def JValue.truthy : JValue → Bool
  | .jstr s => !s.data.isEmpty
  | .jint n => decide (n ≠ 0)
  | .jbool b => b
  | .jlist xs => !xs.isEmpty
  | .jobj fs => !fs.isEmpty
  | .jnull => false

/-! ### Timestamps

`parse_iso8601_utc` (source lines 106-112) delegates to
`datetime.datetime.fromisoformat`.  We abstract that library call by a
parameter `fromIso : String → IsoParse` mapping a string to its parse
outcome: failure, a timezone-naive datetime, or a timezone-aware datetime
whose UTC instant is an `Int`.  `astimezone(utc)` does not change the
instant. -/

/-- Outcome of `datetime.datetime.fromisoformat` on a string. -/
inductive IsoParse where
  | invalid
  | naive (t : Int)
  | aware (t : Int)
deriving DecidableEq, Repr

/-- The `Z`-suffix rewrite at the top of `parse_iso8601_utc`: a trailing `Z`
becomes `+00:00`. -/
def zfix (raw : String) : String :=
  if pyEndsWith raw "Z" then
    String.mk (raw.data.take (raw.data.length - 1) ++ "+00:00".data)
  else raw

/-- Model of `parse_iso8601_utc` (source lines 106-112): rewrite a trailing
`Z`, parse, reject timezone-naive values with `PolicyError`, and return the
UTC instant.  A malformed string raises `ValueError` from `fromisoformat`,
which is not a `PolicyError`. -/
def parse_iso8601_utc (fromIso : String → IsoParse) (raw : String) :
    Except PError Int :=
  match fromIso (zfix raw) with
  | .invalid => .error (.valueError ("invalid isoformat string: " ++ raw))
  | .naive _ => .error (.policyError ("timestamp missing timezone: " ++ raw))
  | .aware t => .ok t

/-! ### Tree line parsing -/

/-- Model of `TREE_LINE_RE.match`, the regex `^(\d+)(.+)$`, on a stripped
line: `(\d+)` is greedy but gives back one digit when the digit run covers
the whole line, because `(.+)` must match at least one character.  Lines
contain no newline (they come from `splitlines`).  Returns the two capture
groups. -/
def treeLineMatch (s : List Char) : Option (List Char × List Char) :=
  let d := (s.takeWhile Char.isDigit).length
  if d = 0 then none
  else if d = s.length then
    if 2 ≤ s.length then some (s.take (d - 1), s.drop (d - 1)) else none
  else some (s.take d, s.drop d)

/-- Model of `parse_tree_line` (source lines 271-288): match the depth-prefix
regex against the stripped line, strip the payload, delete ` (*)` markers,
split on whitespace, and require crate and version tokens; a version token
not starting with `v` is normalized to the sentinel `v?`. -/
def parse_tree_line (raw_line : String) : Except PError (Nat × String × String) :=
  match treeLineMatch (stripChars raw_line.data) with
  | none => .error (.policyError ("invalid cargo tree line format: " ++ raw_line))
  | some (g1, g2) =>
    let depth := digitsToNat g1
    let payload := stripChars g2
    if payload.isEmpty then
      .error (.policyError ("missing package payload in line: " ++ raw_line))
    else
      let cleaned := removeAllFuel " (*)".data payload.length payload
      match splitWsChars cleaned [] with
      | crate :: ver :: _ =>
        .ok (depth, String.mk crate,
          if "v".data.isPrefixOf ver then String.mk ver else "v?")
      | _ => .error (.policyError ("invalid package payload in line: " ++ raw_line))

/-! ### Policy data model -/

/-- `PolicyEntry` dataclass (source lines 29-34). -/
structure PolicyEntry where
  name : String
  reason : String
  remediation : String
  risk_score : Int
deriving DecidableEq, Repr

/-- `Transition` dataclass (source lines 37-44). -/
structure Transition where
  crate : String
  status : String
  owner : String
  replacement_issue : String
  expires_at_utc : String
  notes : String
deriving DecidableEq, Repr

/-- `Profile` dataclass (source lines 47-53); the `features` tuple is a
list. -/
structure Profile where
  profile_id : String
  target : String
  all_features : Bool
  no_default_features : Bool
  features : List String
deriving DecidableEq, Repr

/-- `Finding` dataclass (source lines 56-68); the `transitive_chain` tuple is
a list. -/
structure Finding where
  profile_id : String
  target : String
  crate : String
  version : String
  transitive_chain : List String
  decision : String
  decision_reason : String
  remediation : String
  risk_score : Int
  transition_status : String
  transition_issue : Option String
deriving DecidableEq, Repr

/-- Python `a <= b` on strings. -/
def pyStrLe (a b : String) : Bool := decide (a = b) || pyStrLt a b

/-- Membership test `k in m` for a Python `dict` modelled as an association
list with unique keys. -/
def hasKey (m : List (String × α)) (k : String) : Bool :=
  m.any (fun p => decide (p.1 = k))

/-- Lookup `m.get(k)` for a Python `dict` modelled as an association list
with unique keys. -/
def lookup (m : List (String × α)) (k : String) : Option α :=
  (m.find? (fun p => decide (p.1 = k))).map (fun p => p.2)

/-- `isinstance(x, dict)`. -/
def isJObj : JValue → Bool
  | .jobj _ => true
  | _ => false

/-- `isinstance(x, list)` on an optional value (`dict.get` result). -/
def isJList : Option JValue → Bool
  | some (.jlist _) => true
  | _ => false

/-- `x.get(key)` followed by `isinstance(·, str)`. -/
def getStrField (raw : JValue) (key : String) : Option String :=
  (raw.get key).bind JValue.asStr

/-- `isinstance(features, list) and all(isinstance(x, str) for x in
features)`, with the string values. -/
def strListOfJ : JValue → Option (List String)
  | .jlist xs => xs.mapM JValue.asStr
  | _ => none

/-! ### Policy loading -/

/-- `data.get("schema_version") != "wasm-dependency-policy-v1"`, negated. -/
def schemaVersionOk (data : JValue) : Bool :=
  match data.get "schema_version" with
  | some (.jstr s) => decide (s = "wasm-dependency-policy-v1")
  | _ => false

/-- `isinstance(thresholds, dict) and isinstance(thresholds.get("high"),
int)` for `data.get("risk_thresholds")`. -/
def thresholdsOk (data : JValue) : Bool :=
  match data.get "risk_thresholds" with
  | some (.jobj fs) => (((JValue.jobj fs).get "high").bind JValue.asInt).isSome
  | _ => false

/-- Both output paths are strings (source lines 135-138). -/
def outputPathsOk (output_cfg : JValue) : Bool :=
  (getStrField output_cfg "summary_path").isSome &&
  (getStrField output_cfg "log_path").isSome

/-- Model of `load_policy` (source lines 115-140) after `json.loads`
succeeded with document `data`: validate the schema marker, the four list
sections, `risk_thresholds.high`, and the output configuration, and return
the document unchanged. -/
def load_policy (data : JValue) : Except PError JValue :=
  if !schemaVersionOk data then
    .error (.policyError "unsupported or missing schema_version")
  else if !isJList (data.get "profiles") then
    .error (.policyError "profiles must be a list")
  else if !isJList (data.get "forbidden_crates") then
    .error (.policyError "forbidden_crates must be a list")
  else if !isJList (data.get "conditional_crates") then
    .error (.policyError "conditional_crates must be a list")
  else if !isJList (data.get "transitions") then
    .error (.policyError "transitions must be a list")
  else if !thresholdsOk data then
    .error (.policyError "risk_thresholds.high must be an integer")
  else if !(match data.get "output" with | some (.jobj _) => true | _ => false) then
    .error (.policyError "output must be an object")
  else if !(match data.get "output" with
            | some cfg => outputPathsOk cfg
            | none => false) then
    .error (.policyError "output.summary_path and output.log_path must be strings")
  else .ok data

/-- `policy[key]` for a key `load_policy` verified to be a list; the default
branch is unreachable after `load_policy`. -/
def listField (data : JValue) (key : String) : List JValue :=
  match data.get key with
  | some (.jlist xs) => xs
  | _ => []

/-- `int(policy["risk_thresholds"]["high"])`, present after `load_policy`;
the default branch is unreachable. -/
def riskHighThreshold (data : JValue) : Int :=
  match data.get "risk_thresholds" with
  | some t => ((t.get "high").bind JValue.asInt).getD 0
  | none => 0

/-- Loop body of `load_entry_map` (source lines 181-210), accumulating the
`entries` dict as an association list in insertion order; every validation
failure raises `PolicyError`. -/
def load_entry_map_aux (section_name : String) :
    List JValue → List (String × PolicyEntry) →
    Except PError (List (String × PolicyEntry))
  | [], entries => .ok entries
  | raw :: rest, entries =>
    if !isJObj raw then
      .error (.policyError (section_name ++ " entries must be objects"))
    else
      match getStrField raw "name" with
      | none => .error (.policyError (section_name ++ ".name must be string"))
      | some name =>
        match getStrField raw "reason" with
        | none =>
          .error (.policyError (section_name ++ "." ++ name ++ ": reason must be non-empty string"))
        | some reason =>
          if (stripChars reason.data).isEmpty then
            .error (.policyError (section_name ++ "." ++ name ++ ": reason must be non-empty string"))
          else
            match getStrField raw "remediation" with
            | none =>
              .error (.policyError (section_name ++ "." ++ name ++ ": remediation must be non-empty string"))
            | some remediation =>
              if (stripChars remediation.data).isEmpty then
                .error (.policyError (section_name ++ "." ++ name ++ ": remediation must be non-empty string"))
              else
                match (raw.get "risk_score").bind JValue.asInt with
                | none =>
                  .error (.policyError (section_name ++ "." ++ name ++ ": risk_score must be int in [0, 100]"))
                | some risk_score =>
                  if !(decide (0 ≤ risk_score ∧ risk_score ≤ 100)) then
                    .error (.policyError (section_name ++ "." ++ name ++ ": risk_score must be int in [0, 100]"))
                  else if hasKey entries name then
                    .error (.policyError ("duplicate entry " ++ name ++ " in " ++ section_name))
                  else
                    load_entry_map_aux section_name rest
                      (entries ++ [(name,
                        { name := name, reason := reason,
                          remediation := remediation, risk_score := risk_score })])

/-- Model of `load_entry_map` (source lines 181-210). -/
def load_entry_map (raw_entries : List JValue) (section_name : String) :
    Except PError (List (String × PolicyEntry)) :=
  load_entry_map_aux section_name raw_entries []

/-- Loop body of `load_transitions` (source lines 213-251); the
`expires_at_utc` value is validated through `parse_iso8601_utc` and any
exception it raises propagates. -/
def load_transitions_aux (fromIso : String → IsoParse) :
    List JValue → List (String × Transition) →
    Except PError (List (String × Transition))
  | [], transitions => .ok transitions
  | raw :: rest, transitions =>
    if !isJObj raw then
      .error (.policyError "transitions entries must be objects")
    else
      match getStrField raw "crate" with
      | none => .error (.policyError "transition crate must be string")
      | some crate =>
        match getStrField raw "status" with
        | none =>
          .error (.policyError ("transition " ++ crate ++ ": status must be active|resolved"))
        | some status =>
          if !(decide (status = "active" ∨ status = "resolved")) then
            .error (.policyError ("transition " ++ crate ++ ": status must be active|resolved"))
          else
            match getStrField raw "owner" with
            | none =>
              .error (.policyError ("transition " ++ crate ++ ": owner must be non-empty string"))
            | some owner =>
              if (stripChars owner.data).isEmpty then
                .error (.policyError ("transition " ++ crate ++ ": owner must be non-empty string"))
              else
                match getStrField raw "replacement_issue" with
                | none =>
                  .error (.policyError ("transition " ++ crate ++ ": replacement_issue must be non-empty string"))
                | some replacement_issue =>
                  if (stripChars replacement_issue.data).isEmpty then
                    .error (.policyError ("transition " ++ crate ++ ": replacement_issue must be non-empty string"))
                  else
                    match getStrField raw "expires_at_utc" with
                    | none =>
                      .error (.policyError ("transition " ++ crate ++ ": expires_at_utc must be string"))
                    | some expires_at_utc =>
                      match parse_iso8601_utc fromIso expires_at_utc with
                      | .error e => .error e
                      | .ok _ =>
                        match ((raw.get "notes").getD (.jstr "")).asStr with
                        | none =>
                          .error (.policyError ("transition " ++ crate ++ ": notes must be string"))
                        | some notes =>
                          if hasKey transitions crate then
                            .error (.policyError ("duplicate transition for crate " ++ crate))
                          else
                            load_transitions_aux fromIso rest
                              (transitions ++ [(crate,
                                { crate := crate, status := status, owner := owner,
                                  replacement_issue := replacement_issue,
                                  expires_at_utc := expires_at_utc, notes := notes })])

/-- Model of `load_transitions` (source lines 213-251). -/
def load_transitions (fromIso : String → IsoParse) (raw_transitions : List JValue) :
    Except PError (List (String × Transition)) :=
  load_transitions_aux fromIso raw_transitions []

/-- Model of `validate_policy_cross_refs` (source lines 254-268): the
forbidden and conditional maps must be disjoint and every transition must
reference a crate in one of them. -/
def validate_policy_cross_refs
    (forbidden_map conditional_map : List (String × PolicyEntry))
    (transitions : List (String × Transition)) : Except PError Unit :=
  if forbidden_map.any (fun p => hasKey conditional_map p.1) then
    .error (.policyError "ambiguous policy mapping; crate(s) in forbidden+conditional")
  else
    match transitions.find? (fun p =>
        !hasKey forbidden_map p.1 && !hasKey conditional_map p.1) with
    | some p =>
      .error (.policyError
        ("transition references crate not present in forbidden/conditional maps: " ++ p.1))
    | none => .ok ()

/-- Loop body of `load_profiles` (source lines 143-178): every entry is
validated (object shape, string `id` and `target`, duplicate id, `features`
a list of strings) before the `--only-profile` filter decides whether it is
kept. -/
def load_profiles_aux (only_profile : List String) :
    List JValue → List String → List Profile → Except PError (List Profile)
  | [], _, profiles => .ok profiles
  | raw :: rest, seen, profiles =>
    if !isJObj raw then
      .error (.policyError "profiles entries must be objects")
    else
      match getStrField raw "id", getStrField raw "target" with
      | some profile_id, some target =>
        if seen.any (fun s => decide (s = profile_id)) then
          .error (.policyError ("duplicate profile id: " ++ profile_id))
        else
          match strListOfJ ((raw.get "features").getD (.jlist [])) with
          | none =>
            .error (.policyError ("profile " ++ profile_id ++ ": features must be a list[str]"))
          | some features =>
            if !only_profile.isEmpty &&
                !(only_profile.any (fun s => decide (s = profile_id))) then
              load_profiles_aux only_profile rest (seen ++ [profile_id]) profiles
            else
              load_profiles_aux only_profile rest (seen ++ [profile_id]) (profiles ++
                [{ profile_id := profile_id, target := target,
                   all_features := ((raw.get "all_features").getD (.jbool false)).truthy,
                   no_default_features :=
                     ((raw.get "no_default_features").getD (.jbool false)).truthy,
                   features := pySorted pyStrLe features }])
      | _, _ => .error (.policyError "profile id/target must be strings")

/-- Model of `load_profiles` (source lines 143-178).  `only_profile` is the
`--only-profile` set, modelled as the list of its members. -/
def load_profiles (policyProfiles : List JValue) (only_profile : List String) :
    Except PError (List Profile) :=
  match load_profiles_aux only_profile policyProfiles [] [] with
  | .error e => .error e
  | .ok profiles =>
    if !only_profile.isEmpty && profiles.isEmpty then
      .error (.policyError "--only-profile selected unknown profile(s)")
    else .ok profiles

/-! ### Classification -/

/-- The 6-tuple `(decision, decision_reason, remediation, risk_score,
transition_status, transition_issue)` that `classify_dependency` returns
(source lines 354-361), with named components. -/
structure ClassifyResult where
  decision : String
  decision_reason : String
  remediation : String
  risk_score : Int
  transition_status : String
  transition_issue : Option String
deriving DecidableEq, Repr

/-- Model of `classify_dependency` (source lines 324-361); the expiry parse
can raise, so the result lives in `Except`. -/
def classify_dependency (fromIso : String → IsoParse) (crate : String)
    (forbidden_map conditional_map : List (String × PolicyEntry))
    (transitions : List (String × Transition)) (now_utc : Int) :
    Except PError ClassifyResult :=
  let transition := lookup transitions crate
  match
    (match lookup forbidden_map crate with
     | some entry => some (entry, "forbidden")
     | none =>
       match lookup conditional_map crate with
       | some entry => some (entry, "conditional")
       | none => none) with
  | none => .ok ⟨"allowed", "not policy-managed", "none", 0, "none", none⟩
  | some (entry, decision) =>
    match transition with
    | none =>
      .ok ⟨decision, entry.reason, entry.remediation, entry.risk_score, "none", none⟩
    | some tr =>
      match parse_iso8601_utc fromIso tr.expires_at_utc with
      | .error e => .error e
      | .ok expiry =>
        let transition_status :=
          if tr.status = "resolved" then "resolved"
          else if expiry ≤ now_utc then "expired"
          else "active"
        .ok ⟨decision, entry.reason, entry.remediation, entry.risk_score,
          transition_status, some tr.replacement_issue⟩

/-! ### Profile scanning -/

/-- One ancestor-stack update in `scan_profile` (source lines 379-386):
depth 0 resets the stack to the single crate; a deeper line pops entries
from the end until the length is at most `depth` (keeping the first `depth`
entries), appends `<missing-parent>` placeholders until the length equals
`depth`, then pushes the crate. -/
def nextStack (stack : List String) (depth : Nat) (crate : String) : List String :=
  if depth = 0 then [crate]
  else stack.take depth ++ List.replicate (depth - stack.length) "<missing-parent>" ++ [crate]

/-- Construction of a `Finding` in `scan_profile` (source lines 400-414). -/
def mkFinding (profile : Profile) (crate version : String) (chain : List String)
    (cls : ClassifyResult) : Finding :=
  { profile_id := profile.profile_id, target := profile.target,
    crate := crate, version := version, transitive_chain := chain,
    decision := cls.decision, decision_reason := cls.decision_reason,
    remediation := cls.remediation, risk_score := cls.risk_score,
    transition_status := cls.transition_status,
    transition_issue := cls.transition_issue }

/-- Loop body of `scan_profile` (source lines 376-414): parse each line,
update the ancestor stack, classify the crate, and append a finding for
every non-allowed occurrence, its chain a snapshot (copy) of the stack
after the push.  Any exception aborts the whole scan. -/
def scanLinesAux (fromIso : String → IsoParse) (profile : Profile)
    (forbidden_map conditional_map : List (String × PolicyEntry))
    (transitions : List (String × Transition)) (now_utc : Int) :
    List String → List String → List Finding → Except PError (List Finding)
  | [], _, findings => .ok findings
  | raw_line :: rest, stack, findings =>
    match parse_tree_line raw_line with
    | .error e => .error e
    | .ok (depth, crate, version) =>
      let stack1 := nextStack stack depth crate
      match classify_dependency fromIso crate forbidden_map conditional_map
          transitions now_utc with
      | .error e => .error e
      | .ok cls =>
        if cls.decision = "allowed" then
          scanLinesAux fromIso profile forbidden_map conditional_map transitions
            now_utc rest stack1 findings
        else
          scanLinesAux fromIso profile forbidden_map conditional_map transitions
            now_utc rest stack1 (findings ++ [mkFinding profile crate version stack1 cls])

/-- `">".join(chain)` on character lists. -/
def joinGtChars : List (List Char) → List Char
  | [] => []
  | [x] => x
  | x :: y :: rest => x ++ '>' :: joinGtChars (y :: rest)

/-- `">".join(chain)`. -/
def joinGt (chain : List String) : String :=
  String.mk (joinGtChars (chain.map String.data))

/-- The sort key used by `scan_profile` and `main` (source lines 418-424 and
600-606), as the list of its five components; Python compares these
equal-length tuples lexicographically. -/
def findingKey (f : Finding) : List String :=
  [f.profile_id, f.decision, f.crate, f.version, joinGt f.transitive_chain]

/-- The ascending comparison `sorted` induces on findings: equal keys or
lexicographically smaller key. -/
def findingLe (f g : Finding) : Bool :=
  decide (findingKey f = findingKey g) || lexLt pyStrLt (findingKey f) (findingKey g)

/-- The pure tail of `scan_profile` (source lines 364-437) given the
`cargo tree` stdout lines: scan them, then collapse duplicate findings via
`set` semantics and sort ascending by the finding key.  Python's
unspecified set iteration order is modelled by `List.dedup`; the subsequent
sort makes the choice immaterial. -/
def scan_profile_findings (fromIso : String → IsoParse) (profile : Profile)
    (forbidden_map conditional_map : List (String × PolicyEntry))
    (transitions : List (String × Transition)) (now_utc : Int)
    (lines : List String) : Except PError (List Finding) :=
  match scanLinesAux fromIso profile forbidden_map conditional_map transitions
      now_utc lines [] [] with
  | .error e => .error e
  | .ok findings => .ok (pySorted findingLe findings.dedup)

/-! ### Gate evaluation -/

/-- The `summary` dict built by `evaluate_gate` (source lines 484-490). -/
structure GateSummary where
  passed : Bool
  forbidden_count : Nat
  unresolved_high_risk_count : Nat
  expired_transition_count : Nat
  high_risk_threshold : Int
deriving DecidableEq, Repr

/-- Model of `evaluate_gate` (source lines 469-492). -/
def evaluate_gate (findings : List Finding) (risk_high_threshold : Int) :
    Bool × GateSummary :=
  let forbidden_hits := findings.filter (fun f => decide (f.decision = "forbidden"))
  let unresolved_high_risk := findings.filter (fun f =>
    decide (risk_high_threshold ≤ f.risk_score) &&
    !(decide (f.transition_status = "active" ∨ f.transition_status = "resolved")))
  let expired_transitions :=
    findings.filter (fun f => decide (f.transition_status = "expired"))
  let passed := forbidden_hits.isEmpty && unresolved_high_risk.isEmpty &&
    expired_transitions.isEmpty
  (passed,
    { passed := passed,
      forbidden_count := forbidden_hits.length,
      unresolved_high_risk_count := unresolved_high_risk.length,
      expired_transition_count := expired_transitions.length,
      high_risk_threshold := risk_high_threshold })

/-! ### The main pipeline -/

/-- The profile loop of `main` (source lines 585-596): obtain the listing
for each selected profile (`run_cargo_tree`, whose non-zero exit raises
`RuntimeError`), scan it, and concatenate the findings; the first exception
aborts the run. -/
def allFindingsOf (fromIso : String → IsoParse)
    (forbidden_map conditional_map : List (String × PolicyEntry))
    (transitions : List (String × Transition)) (now_utc : Int)
    (cargoOut : Profile → Except PError (List String)) :
    List Profile → Except PError (List Finding)
  | [] => .ok []
  | p :: ps =>
    match cargoOut p with
    | .error e => .error e
    | .ok lines =>
      match scan_profile_findings fromIso p forbidden_map conditional_map
          transitions now_utc lines with
      | .error e => .error e
      | .ok fs =>
        match allFindingsOf fromIso forbidden_map conditional_map transitions
            now_utc cargoOut ps with
        | .error e => .error e
        | .ok rest => .ok (fs ++ rest)

/-- Pure model of `main` (source lines 563-657) with the process boundary
injected: `doc` is the parsed policy JSON, `only_profile` the
`--only-profile` arguments, `cargoOut` the stdout lines of `cargo tree` per
profile (or the `RuntimeError` `run_cargo_tree` raises on a non-zero or
missing `cargo`), and `now_utc` the current time.  Returns the gate verdict
`passed`; writing the reports does not affect it. -/
def main_result (fromIso : String → IsoParse) (doc : JValue)
    (only_profile : List String)
    (cargoOut : Profile → Except PError (List String)) (now_utc : Int) :
    Except PError Bool :=
  match load_policy doc with
  | .error e => .error e
  | .ok policy =>
    match load_entry_map (listField policy "forbidden_crates") "forbidden_crates" with
    | .error e => .error e
    | .ok forbidden_map =>
      match load_entry_map (listField policy "conditional_crates") "conditional_crates" with
      | .error e => .error e
      | .ok conditional_map =>
        match load_transitions fromIso (listField policy "transitions") with
        | .error e => .error e
        | .ok transitions =>
          match validate_policy_cross_refs forbidden_map conditional_map transitions with
          | .error e => .error e
          | .ok _ =>
            match load_profiles (listField policy "profiles") only_profile with
            | .error e => .error e
            | .ok selected_profiles =>
              if selected_profiles.isEmpty then
                .error (.policyError "no profiles selected for scanning")
              else
                match allFindingsOf fromIso forbidden_map conditional_map
                    transitions now_utc cargoOut selected_profiles with
                | .error e => .error e
                | .ok all_findings =>
                  .ok (evaluate_gate (pySorted findingLe all_findings)
                    (riskHighThreshold policy)).1

/-- The sorted finding list `main` reports (source lines 598-607): the same
pipeline as `main_result`, returning the final deduplicated-per-profile,
globally sorted finding sequence the gate is evaluated on. -/
def main_findings (fromIso : String → IsoParse) (doc : JValue)
    (only_profile : List String)
    (cargoOut : Profile → Except PError (List String)) (now_utc : Int) :
    Except PError (List Finding) :=
  match load_policy doc with
  | .error e => .error e
  | .ok policy =>
    match load_entry_map (listField policy "forbidden_crates") "forbidden_crates" with
    | .error e => .error e
    | .ok forbidden_map =>
      match load_entry_map (listField policy "conditional_crates") "conditional_crates" with
      | .error e => .error e
      | .ok conditional_map =>
        match load_transitions fromIso (listField policy "transitions") with
        | .error e => .error e
        | .ok transitions =>
          match validate_policy_cross_refs forbidden_map conditional_map transitions with
          | .error e => .error e
          | .ok _ =>
            match load_profiles (listField policy "profiles") only_profile with
            | .error e => .error e
            | .ok selected_profiles =>
              if selected_profiles.isEmpty then
                .error (.policyError "no profiles selected for scanning")
              else
                match allFindingsOf fromIso forbidden_map conditional_map
                    transitions now_utc cargoOut selected_profiles with
                | .error e => .error e
                | .ok all_findings => .ok (pySorted findingLe all_findings)

/-- Exit status of the process: the `__main__` guard (source lines 660-665)
runs `raise SystemExit(main())`, so `main`'s return value is the exit code
(0 for a passing gate, 1 for a failing one); `PolicyError` is caught and
mapped to exit code 2; any other uncaught exception (a plain `ValueError`,
or the `RuntimeError` from `run_cargo_tree`) terminates the interpreter
with its conventional exit code 1 for an unhandled exception. -/
def process_exit_code (r : Except PError Bool) : Nat :=
  match r with
  | .ok true => 0
  | .ok false => 1
  | .error (.policyError _) => 2
  | .error (.valueError _) => 1
  | .error (.runtimeError _) => 1


/-! ### Derived views of profile loading, for the selection claims -/

/-- A profile entry that passes every per-entry check of `load_profiles`
(source lines 147-159): object shape, string `id` and `target`, and
`features` a list of strings. -/
def profileEntryOk (raw : JValue) : Bool :=
  isJObj raw && (getStrField raw "id").isSome && (getStrField raw "target").isSome &&
  (strListOfJ ((raw.get "features").getD (.jlist []))).isSome

/-- The configured id of a profile entry (default for malformed entries). -/
def profileIdOf (raw : JValue) : String := (getStrField raw "id").getD ""

/-- The `Profile` record a valid entry produces (source lines 164-172); the
defaults are unreachable on valid entries. -/
def profileOfRaw (raw : JValue) : Profile :=
  { profile_id := profileIdOf raw,
    target := (getStrField raw "target").getD "",
    all_features := ((raw.get "all_features").getD (.jbool false)).truthy,
    no_default_features := ((raw.get "no_default_features").getD (.jbool false)).truthy,
    features := pySorted pyStrLe ((strListOfJ ((raw.get "features").getD (.jlist []))).getD []) }

/-- The profiles `load_profiles` keeps, in configured order: those whose id
is requested (or all of them when no subset is requested). -/
def selectedProfiles (raws : List JValue) (only : List String) : List Profile :=
  (raws.filter (fun raw =>
    only.isEmpty || only.any (fun s => decide (s = profileIdOf raw)))).map profileOfRaw

/-! ### Concrete sample data for closed instances -/

/-- A concrete `fromisoformat` model recognizing the timestamps the sample
policies use; everything else is a parse failure. -/
def sampleFromIso : String → IsoParse := fun s =>
  if s = "2026-06-01T00:00:00+00:00" then .aware 100
  else if s = "2026-01-01T00:00:00+00:00" then .aware 0
  else if s = "2026-07-01T00:00:00" then .naive 50
  else .invalid

/-- A sample forbidden map with the single crate `tokio`. -/
def sampleForbidden : List (String × PolicyEntry) :=
  [("tokio", ⟨"tokio", "forbidden in wasm builds", "remove", 100⟩)]

/-- A sample conditional map with the single crate `tower`. -/
def sampleConditional : List (String × PolicyEntry) :=
  [("tower", ⟨"tower", "conditional in wasm builds", "feature-gate", 70⟩)]

/-- An active transition for `tower` expiring at instant 100. -/
def sampleTransition : Transition :=
  ⟨"tower", "active", "runtime-core", "issue-1", "2026-06-01T00:00:00Z", "tracked"⟩

/-- The transition map holding `sampleTransition`. -/
def sampleTransitions : List (String × Transition) := [("tower", sampleTransition)]

/-- The same transition marked `resolved`. -/
def sampleResolvedTransition : Transition :=
  ⟨"tower", "resolved", "runtime-core", "issue-1", "2026-06-01T00:00:00Z", "tracked"⟩

/-- A profile for the concrete scans of closed instances. -/
def sampleProfile : Profile := ⟨"wasm", "wasm32-unknown-unknown", false, false, []⟩

/-- A conditional map covering every crate of the concrete scans, so each
occurrence records a finding whose chain exposes the stack snapshot. -/
def chainCond : List (String × PolicyEntry) :=
  [("app", ⟨"app", "r", "m", 1⟩), ("serde", ⟨"serde", "r", "m", 1⟩),
   ("serde_derive", ⟨"serde_derive", "r", "m", 1⟩), ("deep", ⟨"deep", "r", "m", 1⟩)]

/-- A minimal valid policy document: one profile, empty maps, threshold 7. -/
def sampleDoc : JValue :=
  .jobj [("schema_version", .jstr "wasm-dependency-policy-v1"),
         ("profiles", .jlist [.jobj [("id", .jstr "a"), ("target", .jstr "t")]]),
         ("forbidden_crates", .jlist []),
         ("conditional_crates", .jlist []),
         ("transitions", .jlist []),
         ("risk_thresholds", .jobj [("high", .jint 7)]),
         ("output", .jobj [("summary_path", .jstr "s"), ("log_path", .jstr "l")])]

/-- The same policy with `tokio` forbidden, so a listing containing `tokio`
fails the gate. -/
def sampleDocForbidden : JValue :=
  .jobj [("schema_version", .jstr "wasm-dependency-policy-v1"),
         ("profiles", .jlist [.jobj [("id", .jstr "a"), ("target", .jstr "t")]]),
         ("forbidden_crates", .jlist [.jobj [("name", .jstr "tokio"),
           ("reason", .jstr "r"), ("remediation", .jstr "m"),
           ("risk_score", .jint 9)]]),
         ("conditional_crates", .jlist []),
         ("transitions", .jlist []),
         ("risk_thresholds", .jobj [("high", .jint 7)]),
         ("output", .jobj [("summary_path", .jstr "s"), ("log_path", .jstr "l")])]

/-- The policy-loading prefix of `main` (source lines 569-575): validate the
document, build the forbidden and conditional entry maps and the transition
map, and check cross references; the first exception aborts loading with no
partial state. -/
def load_policy_bundle (fromIso : String → IsoParse) (doc : JValue) :
    Except PError (List (String × PolicyEntry) × List (String × PolicyEntry) ×
      List (String × Transition)) :=
  match load_policy doc with
  | .error e => .error e
  | .ok policy =>
    match load_entry_map (listField policy "forbidden_crates") "forbidden_crates" with
    | .error e => .error e
    | .ok forbidden_map =>
      match load_entry_map (listField policy "conditional_crates")
          "conditional_crates" with
      | .error e => .error e
      | .ok conditional_map =>
        match load_transitions fromIso (listField policy "transitions") with
        | .error e => .error e
        | .ok transitions =>
          match validate_policy_cross_refs forbidden_map conditional_map
              transitions with
          | .error e => .error e
          | .ok _ => .ok (forbidden_map, conditional_map, transitions)

/-- One entry of `forbidden_crates`/`conditional_crates` passes every
per-entry check of `load_entry_map` (source lines 184-199): an object with
a string name, non-blank string reason and remediation, and an integer
risk score within `[0, 100]`. -/
def entryRawOk (raw : JValue) : Bool :=
  isJObj raw && (getStrField raw "name").isSome &&
  (match getStrField raw "reason" with
   | some r => !(stripChars r.data).isEmpty
   | none => false) &&
  (match getStrField raw "remediation" with
   | some r => !(stripChars r.data).isEmpty
   | none => false) &&
  (match (raw.get "risk_score").bind JValue.asInt with
   | some n => decide (0 ≤ n ∧ n ≤ 100)
   | none => false)

/-- One entry of `transitions` passes every per-entry check of
`load_transitions` (source lines 216-238): an object with a string crate, a
status among `active`/`resolved`, non-blank owner and replacement issue, a
string expiry that parses to a timezone-aware instant, and string notes. -/
def transitionRawOk (fromIso : String → IsoParse) (raw : JValue) : Bool :=
  isJObj raw && (getStrField raw "crate").isSome &&
  (match getStrField raw "status" with
   | some s => decide (s = "active" ∨ s = "resolved")
   | none => false) &&
  (match getStrField raw "owner" with
   | some s => !(stripChars s.data).isEmpty
   | none => false) &&
  (match getStrField raw "replacement_issue" with
   | some s => !(stripChars s.data).isEmpty
   | none => false) &&
  (match getStrField raw "expires_at_utc" with
   | some s => (match fromIso (zfix s) with | .aware _ => true | _ => false)
   | none => false) &&
  (((raw.get "notes").getD (.jstr "")).asStr).isSome

/-- The string names carried by the entries of a crate section. -/
def entryNamesOf (entries : List JValue) : List String :=
  entries.filterMap (fun raw => getStrField raw "name")

/-- The string crate names carried by the entries of the transitions
section. -/
def transitionCratesOf (entries : List JValue) : List String :=
  entries.filterMap (fun raw => getStrField raw "crate")

/-- Documents exercising each rejection of the policy-loading claim. -/
def c6DocDupF : JValue :=
  .jobj [("forbidden_crates", .jlist [.jobj [("name", .jstr "x")],
    .jobj [("name", .jstr "x")]])]

/-- Duplicate name in `conditional_crates`. -/
def c6DocDupC : JValue :=
  .jobj [("conditional_crates", .jlist [.jobj [("name", .jstr "x")],
    .jobj [("name", .jstr "x")]])]

/-- A blank `reason`. -/
def c6DocBlank : JValue :=
  .jobj [("forbidden_crates", .jlist [.jobj [("name", .jstr "x"),
    ("reason", .jstr " ")]])]

/-- A `risk_score` above 100. -/
def c6DocRisk : JValue :=
  .jobj [("forbidden_crates", .jlist [.jobj [("name", .jstr "x"),
    ("risk_score", .jint 101)]])]

/-- The crate `x` in both maps. -/
def c6DocOverlap : JValue :=
  .jobj [("forbidden_crates", .jlist [.jobj [("name", .jstr "x")]]),
         ("conditional_crates", .jlist [.jobj [("name", .jstr "x")]])]

/-- A timezone-naive transition expiry. -/
def c6DocNaive : JValue :=
  .jobj [("transitions", .jlist [.jobj [("expires_at_utc",
    .jstr "2026-07-01T00:00:00")]])]

/-- A transition status outside `active`/`resolved`. -/
def c6DocStatus : JValue :=
  .jobj [("transitions", .jlist [.jobj [("status", .jstr "weird")]])]

/-- Two transitions for the same crate. -/
def c6DocDupT : JValue :=
  .jobj [("transitions", .jlist [.jobj [("crate", .jstr "x")],
    .jobj [("crate", .jstr "x")]])]

/-- A transition for a crate in neither map. -/
def c6DocDangling : JValue :=
  .jobj [("transitions", .jlist [.jobj [("crate", .jstr "zzz")]])]

/-- A fully valid document: tokio forbidden, tower conditional with an
active transition. -/
def c6DocGood : JValue :=
  .jobj [("schema_version", .jstr "wasm-dependency-policy-v1"),
         ("profiles", .jlist [.jobj [("id", .jstr "a"), ("target", .jstr "t")]]),
         ("forbidden_crates", .jlist [.jobj [("name", .jstr "tokio"),
           ("reason", .jstr "r"), ("remediation", .jstr "m"),
           ("risk_score", .jint 9)]]),
         ("conditional_crates", .jlist [.jobj [("name", .jstr "tower"),
           ("reason", .jstr "r"), ("remediation", .jstr "m"),
           ("risk_score", .jint 5)]]),
         ("transitions", .jlist [.jobj [("crate", .jstr "tower"),
           ("status", .jstr "active"), ("owner", .jstr "o"),
           ("replacement_issue", .jstr "i"),
           ("expires_at_utc", .jstr "2026-06-01T00:00:00Z")]]),
         ("risk_thresholds", .jobj [("high", .jint 7)]),
         ("output", .jobj [("summary_path", .jstr "s"), ("log_path", .jstr "l")])]

/-! ### Order lemmas for the sort comparators -/

theorem charLt_trans {a b c : Char} (h1 : charLt a b = true) (h2 : charLt b c = true) :
    charLt a c = true := by
  simp only [charLt, decide_eq_true_eq] at *
  omega

theorem charLt_trichotomy (a b : Char) :
    charLt a b = true ∨ a = b ∨ charLt b a = true := by
  rcases Nat.lt_trichotomy a.toNat b.toNat with h | h | h
  · exact Or.inl (by simpa [charLt])
  · exact Or.inr (Or.inl (Char.ext (UInt32.toNat.inj h)))
  · exact Or.inr (Or.inr (by simpa [charLt]))

theorem lexLt_trans {α : Type} [DecidableEq α] {lt : α → α → Bool}
    (hlt : ∀ x y z, lt x y = true → lt y z = true → lt x z = true) :
    ∀ as bs cs : List α, lexLt lt as bs = true → lexLt lt bs cs = true →
      lexLt lt as cs = true
  | as, bs, [] => by intro _ h2; cases bs <;> simp [lexLt] at h2
  | [], [], _ :: _ => by intro h1 _; simp [lexLt] at h1
  | [], _ :: _, _ :: _ => by intro _ _; simp [lexLt]
  | _ :: _, [], _ :: _ => by intro h1 _; simp [lexLt] at h1
  | a :: as, b :: bs, c :: cs => by
    intro h1 h2
    simp only [lexLt, Bool.or_eq_true, Bool.and_eq_true, decide_eq_true_eq] at h1 h2 ⊢
    rcases h1 with h1 | ⟨rfl, h1⟩
    · rcases h2 with h2 | ⟨rfl, h2⟩
      · exact Or.inl (hlt _ _ _ h1 h2)
      · exact Or.inl h1
    · rcases h2 with h2 | ⟨rfl, h2⟩
      · exact Or.inl h2
      · exact Or.inr ⟨rfl, lexLt_trans hlt as bs cs h1 h2⟩

theorem lexLt_trichotomy {α : Type} [DecidableEq α] {lt : α → α → Bool}
    (hlt : ∀ x y, lt x y = true ∨ x = y ∨ lt y x = true) :
    ∀ as bs : List α, lexLt lt as bs = true ∨ as = bs ∨ lexLt lt bs as = true
  | [], [] => Or.inr (Or.inl rfl)
  | [], _ :: _ => Or.inl (by simp [lexLt])
  | _ :: _, [] => Or.inr (Or.inr (by simp [lexLt]))
  | a :: as, b :: bs => by
    rcases hlt a b with h | h | h
    · exact Or.inl (by simp [lexLt, h])
    · subst h
      rcases lexLt_trichotomy hlt as bs with h | h | h
      · exact Or.inl (by simp [lexLt, h])
      · exact Or.inr (Or.inl (by rw [h]))
      · exact Or.inr (Or.inr (by simp [lexLt, h]))
    · exact Or.inr (Or.inr (by simp [lexLt, h]))

theorem pyStrLt_trans {a b c : String} (h1 : pyStrLt a b = true)
    (h2 : pyStrLt b c = true) : pyStrLt a c = true :=
  @lexLt_trans Char _ charLt (fun _ _ _ hxy hyz => charLt_trans hxy hyz)
    a.data b.data c.data h1 h2

theorem pyStrLt_trichotomy (a b : String) :
    pyStrLt a b = true ∨ a = b ∨ pyStrLt b a = true := by
  rcases lexLt_trichotomy charLt_trichotomy a.data b.data with h | h | h
  · exact Or.inl h
  · refine Or.inr (Or.inl ?_)
    cases a; cases b
    exact congrArg String.mk h
  · exact Or.inr (Or.inr h)

theorem findingLe_trans {f g h : Finding} (h1 : findingLe f g = true)
    (h2 : findingLe g h = true) : findingLe f h = true := by
  simp only [findingLe, Bool.or_eq_true, decide_eq_true_eq] at h1 h2 ⊢
  rcases h1 with h1 | h1
  · rcases h2 with h2 | h2
    · exact Or.inl (h1.trans h2)
    · exact Or.inr (h1 ▸ h2)
  · rcases h2 with h2 | h2
    · exact Or.inr (h2 ▸ h1)
    · exact Or.inr
        (@lexLt_trans String _ pyStrLt (fun _ _ _ hxy hyz => pyStrLt_trans hxy hyz)
          _ _ _ h1 h2)

theorem findingLe_total (f g : Finding) :
    findingLe f g = true ∨ findingLe g f = true := by
  simp only [findingLe, Bool.or_eq_true, decide_eq_true_eq]
  rcases lexLt_trichotomy pyStrLt_trichotomy (findingKey f) (findingKey g) with h | h | h
  · exact Or.inl (Or.inr h)
  · exact Or.inl (Or.inl h)
  · exact Or.inr (Or.inr h)

/-! ### `pySorted` is Mathlib's insertion sort -/

theorem orderedInsertLe_eq {α : Type} (le : α → α → Bool) (a : α) :
    ∀ l : List α, orderedInsertLe le a l =
      List.orderedInsert (fun x y => le x y = true) a l
  | [] => rfl
  | b :: bs => by
    simp only [orderedInsertLe, List.orderedInsert]
    by_cases h : le a b = true
    · simp [h]
    · simp [h, orderedInsertLe_eq le a bs]

theorem pySorted_eq {α : Type} (le : α → α → Bool) :
    ∀ l : List α, pySorted le l = List.insertionSort (fun x y => le x y = true) l
  | [] => rfl
  | a :: as => by
    simp only [pySorted, List.insertionSort, pySorted_eq le as, orderedInsertLe_eq]

theorem pySorted_perm {α : Type} (le : α → α → Bool) (l : List α) :
    (pySorted le l).Perm l := by
  rw [pySorted_eq]
  exact List.perm_insertionSort _ l

theorem pySorted_sorted {α : Type} (le : α → α → Bool)
    (htot : ∀ x y, le x y = true ∨ le y x = true)
    (htrans : ∀ x y z, le x y = true → le y z = true → le x z = true)
    (l : List α) : (pySorted le l).Pairwise (fun x y => le x y = true) := by
  rw [pySorted_eq]
  exact @List.sorted_insertionSort _ _ _ ⟨htot⟩ ⟨htrans⟩ l

/-! ## Claims -/

/-- C1: `evaluate_gate` computes `forbidden_count` as the number of findings
with decision `forbidden`, `unresolved_high_risk_count` as the number of
findings with `risk_score >= threshold` whose transition status is neither
`active` nor `resolved` (regardless of decision), and
`expired_transition_count` as the number of findings with transition status
`expired` (regardless of decision or risk score); the verdict passes iff
all three counts are zero. -/
theorem C1_evaluate_gate_counts (findings : List Finding) (threshold : Int) :
    (evaluate_gate findings threshold).2.forbidden_count =
      findings.countP (fun f => decide (f.decision = "forbidden")) ∧
    (evaluate_gate findings threshold).2.unresolved_high_risk_count =
      findings.countP (fun f => decide (threshold ≤ f.risk_score ∧
        f.transition_status ≠ "active" ∧ f.transition_status ≠ "resolved")) ∧
    (evaluate_gate findings threshold).2.expired_transition_count =
      findings.countP (fun f => decide (f.transition_status = "expired")) ∧
    ((evaluate_gate findings threshold).1 = true ↔
      (evaluate_gate findings threshold).2.forbidden_count = 0 ∧
      (evaluate_gate findings threshold).2.unresolved_high_risk_count = 0 ∧
      (evaluate_gate findings threshold).2.expired_transition_count = 0) := by
  refine ⟨?_, ?_, ?_, ?_⟩
  · simp [evaluate_gate, List.countP_eq_length_filter]
  · rw [List.countP_eq_length_filter]
    simp only [evaluate_gate]
    congr 1
    apply List.filter_congr
    intro f _
    by_cases h1 : threshold ≤ f.risk_score <;>
      by_cases h2 : f.transition_status = "active" <;>
        by_cases h3 : f.transition_status = "resolved" <;>
          simp [h1, h2, h3]
  · simp [evaluate_gate, List.countP_eq_length_filter]
  · simp only [evaluate_gate, Bool.and_eq_true, List.isEmpty_iff_length_eq_zero]
    tauto

/-- C5: transition-status determination in `classify_dependency` for a
policy-managed crate: no transition record yields status `none`; a record
with status `resolved` yields `resolved` whatever its expiry instant; a
record with status `active` whose expiry is at or before `now` yields
`expired`; and a record with status `active` whose expiry is strictly after
`now` yields `active`. -/
theorem C5_transition_status_cases (fromIso : String → IsoParse) (crate : String)
    (fm cm : List (String × PolicyEntry)) (tm : List (String × Transition))
    (now t : Int) (tr : Transition)
    (hmanaged : (lookup fm crate).isSome ∨ (lookup cm crate).isSome) :
    (lookup tm crate = none →
      (classify_dependency fromIso crate fm cm tm now).map
        ClassifyResult.transition_status = .ok "none") ∧
    (lookup tm crate = some tr → fromIso (zfix tr.expires_at_utc) = .aware t →
      tr.status = "resolved" →
      (classify_dependency fromIso crate fm cm tm now).map
        ClassifyResult.transition_status = .ok "resolved") ∧
    (lookup tm crate = some tr → fromIso (zfix tr.expires_at_utc) = .aware t →
      tr.status = "active" → t ≤ now →
      (classify_dependency fromIso crate fm cm tm now).map
        ClassifyResult.transition_status = .ok "expired") ∧
    (lookup tm crate = some tr → fromIso (zfix tr.expires_at_utc) = .aware t →
      tr.status = "active" → now < t →
      (classify_dependency fromIso crate fm cm tm now).map
        ClassifyResult.transition_status = .ok "active") := by
  have hm : (∃ e, lookup fm crate = some e) ∨
      (lookup fm crate = none ∧ ∃ e, lookup cm crate = some e) := by
    rcases hf : lookup fm crate with _ | e
    · rcases hmanaged with h | h
      · rw [hf] at h; simp at h
      · exact Or.inr ⟨rfl, Option.isSome_iff_exists.mp h⟩
    · exact Or.inl ⟨e, rfl⟩
  refine ⟨?_, ?_, ?_, ?_⟩
  · intro h1
    rcases hm with ⟨e, he⟩ | ⟨hf, e, he⟩
    · simp [classify_dependency, he, h1, Except.map]
    · simp [classify_dependency, hf, he, h1, Except.map]
  · intro h1 h2 h3
    rcases hm with ⟨e, he⟩ | ⟨hf, e, he⟩
    · simp [classify_dependency, he, h1, parse_iso8601_utc, h2, h3, Except.map]
    · simp [classify_dependency, hf, he, h1, parse_iso8601_utc, h2, h3, Except.map]
  · intro h1 h2 h3 h4
    rcases hm with ⟨e, he⟩ | ⟨hf, e, he⟩
    · simp [classify_dependency, he, h1, parse_iso8601_utc, h2, h3, h4, Except.map]
    · simp [classify_dependency, hf, he, h1, parse_iso8601_utc, h2, h3, h4, Except.map]
  · intro h1 h2 h3 h4
    rcases hm with ⟨e, he⟩ | ⟨hf, e, he⟩
    · simp [classify_dependency, he, h1, parse_iso8601_utc, h2, h3,
        Int.not_le.mpr h4, Except.map]
    · simp [classify_dependency, hf, he, h1, parse_iso8601_utc, h2, h3,
        Int.not_le.mpr h4, Except.map]

/-- Closed instance of `C5_transition_status_cases`: the four transition
statuses observed at concrete inputs. -/
theorem C5_transition_status_cases_witness :
    (classify_dependency sampleFromIso "tokio" sampleForbidden sampleConditional
      sampleTransitions 0).map ClassifyResult.transition_status = .ok "none" ∧
    (classify_dependency sampleFromIso "tower" sampleForbidden sampleConditional
      [("tower", sampleResolvedTransition)] 200).map
        ClassifyResult.transition_status = .ok "resolved" ∧
    (classify_dependency sampleFromIso "tower" sampleForbidden sampleConditional
      sampleTransitions 200).map ClassifyResult.transition_status = .ok "expired" ∧
    (classify_dependency sampleFromIso "tower" sampleForbidden sampleConditional
      sampleTransitions 0).map ClassifyResult.transition_status = .ok "active" := by
  refine ⟨?_, ?_, ?_, ?_⟩
  · exact (C5_transition_status_cases sampleFromIso "tokio" sampleForbidden
      sampleConditional sampleTransitions 0 0 sampleTransition
      (Or.inl (by decide))).1 (by decide)
  · exact (C5_transition_status_cases sampleFromIso "tower" sampleForbidden
      sampleConditional [("tower", sampleResolvedTransition)] 200 100
      sampleResolvedTransition (Or.inr (by decide))).2.1
      (by decide) (by decide) (by decide)
  · exact (C5_transition_status_cases sampleFromIso "tower" sampleForbidden
      sampleConditional sampleTransitions 200 100 sampleTransition
      (Or.inr (by decide))).2.2.1 (by decide) (by decide) (by decide) (by decide)
  · exact (C5_transition_status_cases sampleFromIso "tower" sampleForbidden
      sampleConditional sampleTransitions 0 100 sampleTransition
      (Or.inr (by decide))).2.2.2 (by decide) (by decide) (by decide) (by decide)

/-- C7: classification priority: an exact forbidden-map match yields
decision `forbidden` with that entry's reason, remediation and risk score
regardless of the (validated) transition content; otherwise an exact
conditional-map match yields `conditional` with that entry's fields;
otherwise the occurrence is allowed and the scan records no finding for
it. -/
theorem C7_classification_priority (fromIso : String → IsoParse) (crate : String)
    (fm cm : List (String × PolicyEntry)) (tm : List (String × Transition))
    (now : Int)
    (htr : ∀ tr, lookup tm crate = some tr →
      ∃ t, fromIso (zfix tr.expires_at_utc) = .aware t) :
    (∀ e, lookup fm crate = some e →
      ∃ r, classify_dependency fromIso crate fm cm tm now = .ok r ∧
        r.decision = "forbidden" ∧ r.decision_reason = e.reason ∧
        r.remediation = e.remediation ∧ r.risk_score = e.risk_score) ∧
    (lookup fm crate = none → ∀ e, lookup cm crate = some e →
      ∃ r, classify_dependency fromIso crate fm cm tm now = .ok r ∧
        r.decision = "conditional" ∧ r.decision_reason = e.reason ∧
        r.remediation = e.remediation ∧ r.risk_score = e.risk_score) ∧
    (lookup fm crate = none → lookup cm crate = none →
      classify_dependency fromIso crate fm cm tm now =
        .ok ⟨"allowed", "not policy-managed", "none", 0, "none", none⟩ ∧
      ∀ profile rest stack acc raw depth version,
        parse_tree_line raw = .ok (depth, crate, version) →
        scanLinesAux fromIso profile fm cm tm now (raw :: rest) stack acc =
          scanLinesAux fromIso profile fm cm tm now rest
            (nextStack stack depth crate) acc) := by
  refine ⟨?_, ?_, ?_⟩
  · intro e he
    rcases htm : lookup tm crate with _ | tr
    · exact ⟨⟨"forbidden", e.reason, e.remediation, e.risk_score, "none", none⟩,
        by simp [classify_dependency, he, htm], rfl, rfl, rfl, rfl⟩
    · obtain ⟨t, ht⟩ := htr tr htm
      exact ⟨⟨"forbidden", e.reason, e.remediation, e.risk_score,
          if tr.status = "resolved" then "resolved"
          else if t ≤ now then "expired" else "active",
          some tr.replacement_issue⟩,
        by simp [classify_dependency, he, htm, parse_iso8601_utc, ht],
        rfl, rfl, rfl, rfl⟩
  · intro hf e he
    rcases htm : lookup tm crate with _ | tr
    · exact ⟨⟨"conditional", e.reason, e.remediation, e.risk_score, "none", none⟩,
        by simp [classify_dependency, hf, he, htm], rfl, rfl, rfl, rfl⟩
    · obtain ⟨t, ht⟩ := htr tr htm
      exact ⟨⟨"conditional", e.reason, e.remediation, e.risk_score,
          if tr.status = "resolved" then "resolved"
          else if t ≤ now then "expired" else "active",
          some tr.replacement_issue⟩,
        by simp [classify_dependency, hf, he, htm, parse_iso8601_utc, ht],
        rfl, rfl, rfl, rfl⟩
  · intro hf hc
    have hcl : classify_dependency fromIso crate fm cm tm now =
        .ok ⟨"allowed", "not policy-managed", "none", 0, "none", none⟩ := by
      simp [classify_dependency, hf, hc]
    refine ⟨hcl, ?_⟩
    intro profile rest stack acc raw depth version hparse
    simp [scanLinesAux, hparse, hcl]

/-- Closed instance of `C7_classification_priority` at a concrete policy:
`tokio` (forbidden, with no transition), `tower` (conditional, with an
active transition), and `serde` (unmanaged, producing no finding). -/
theorem C7_classification_priority_witness :
    (∃ r, classify_dependency sampleFromIso "tokio" sampleForbidden
        sampleConditional sampleTransitions 0 = .ok r ∧
      r.decision = "forbidden" ∧ r.decision_reason = "forbidden in wasm builds" ∧
      r.remediation = "remove" ∧ r.risk_score = 100) ∧
    (∃ r, classify_dependency sampleFromIso "tower" sampleForbidden
        sampleConditional sampleTransitions 0 = .ok r ∧
      r.decision = "conditional" ∧
      r.decision_reason = "conditional in wasm builds" ∧
      r.remediation = "feature-gate" ∧ r.risk_score = 70) ∧
    (classify_dependency sampleFromIso "serde" sampleForbidden sampleConditional
        sampleTransitions 0 =
      .ok ⟨"allowed", "not policy-managed", "none", 0, "none", none⟩ ∧
    scanLinesAux sampleFromIso ⟨"wasm", "t", false, false, []⟩ sampleForbidden
        sampleConditional sampleTransitions 0 ["1 serde v1"] ["app"] [] =
      scanLinesAux sampleFromIso ⟨"wasm", "t", false, false, []⟩ sampleForbidden
        sampleConditional sampleTransitions 0 [] (nextStack ["app"] 1 "serde") []) := by
  have htok : ∀ tr, lookup sampleTransitions "tokio" = some tr →
      ∃ t, sampleFromIso (zfix tr.expires_at_utc) = .aware t := by
    intro tr h
    rw [show lookup sampleTransitions "tokio" = none from by decide] at h
    exact Option.noConfusion h
  have htow : ∀ tr, lookup sampleTransitions "tower" = some tr →
      ∃ t, sampleFromIso (zfix tr.expires_at_utc) = .aware t := by
    intro tr h
    rw [show lookup sampleTransitions "tower" = some sampleTransition from by decide] at h
    cases h
    exact ⟨100, by decide⟩
  have hser : ∀ tr, lookup sampleTransitions "serde" = some tr →
      ∃ t, sampleFromIso (zfix tr.expires_at_utc) = .aware t := by
    intro tr h
    rw [show lookup sampleTransitions "serde" = none from by decide] at h
    exact Option.noConfusion h
  refine ⟨?_, ?_, ?_⟩
  · exact (C7_classification_priority sampleFromIso "tokio" sampleForbidden
      sampleConditional sampleTransitions 0 htok).1
      ⟨"tokio", "forbidden in wasm builds", "remove", 100⟩ (by decide)
  · exact (C7_classification_priority sampleFromIso "tower" sampleForbidden
      sampleConditional sampleTransitions 0 htow).2.1 (by decide)
      ⟨"tower", "conditional in wasm builds", "feature-gate", 70⟩ (by decide)
  · have h := (C7_classification_priority sampleFromIso "serde" sampleForbidden
      sampleConditional sampleTransitions 0 hser).2.2 (by decide) (by decide)
    exact ⟨h.1, h.2 ⟨"wasm", "t", false, false, []⟩ [] ["app"] [] "1 serde v1" 1 "v1"
      (by decide)⟩

/-! ### Profile-loading lemmas -/

theorem load_profiles_aux_eq (only : List String) :
    ∀ (raws : List JValue) (seen : List String) (acc : List Profile),
      (∀ raw ∈ raws, profileEntryOk raw = true) →
      (raws.map profileIdOf).Nodup →
      (∀ raw ∈ raws, seen.any (fun s => decide (s = profileIdOf raw)) = false) →
      load_profiles_aux only raws seen acc = .ok (acc ++ selectedProfiles raws only)
  | [], seen, acc, _, _, _ => by simp [load_profiles_aux, selectedProfiles]
  | raw :: rest, seen, acc, hok, hnodup, hseen => by
    rw [List.map_cons, List.nodup_cons] at hnodup
    have hraw := hok raw (List.mem_cons_self raw rest)
    simp only [profileEntryOk, Bool.and_eq_true, Option.isSome_iff_exists] at hraw
    obtain ⟨⟨⟨hobj, pid, hid⟩, tgt, htgt⟩, feats, hfeat⟩ := hraw
    have hpid : profileIdOf raw = pid := by simp [profileIdOf, hid]
    have hdup : seen.any (fun s => decide (s = pid)) = false := by
      rw [← hpid]; exact hseen raw (List.mem_cons_self raw rest)
    have hrec : ∀ acc2, load_profiles_aux only rest (seen ++ [pid]) acc2 =
        .ok (acc2 ++ selectedProfiles rest only) := by
      intro acc2
      apply load_profiles_aux_eq
      · exact fun r hr => hok r (List.mem_cons_of_mem raw hr)
      · exact hnodup.2
      · intro r hr
        rw [List.any_append]
        have h1 := hseen r (List.mem_cons_of_mem raw hr)
        have h2 : pid ≠ profileIdOf r := by
          intro hcontra
          rw [hpid] at hnodup
          exact hnodup.1 (hcontra ▸ List.mem_map_of_mem profileIdOf hr)
        simp [h1, h2]
    have hprof : profileOfRaw raw =
        { profile_id := pid, target := tgt,
          all_features := ((raw.get "all_features").getD (.jbool false)).truthy,
          no_default_features :=
            ((raw.get "no_default_features").getD (.jbool false)).truthy,
          features := pySorted pyStrLe feats } := by
      simp [profileOfRaw, profileIdOf, hid, htgt, hfeat]
    by_cases hkeep : (only.isEmpty || only.any (fun s => decide (s = pid))) = true
    · have hsel : selectedProfiles (raw :: rest) only =
          profileOfRaw raw :: selectedProfiles rest only := by
        simp only [selectedProfiles, List.filter_cons]
        rw [hpid, if_pos hkeep]
        simp [selectedProfiles]
      have hnot : (!only.isEmpty && !only.any (fun s => decide (s = pid))) = false := by
        rcases Bool.or_eq_true _ _ |>.mp hkeep with h | h <;> simp [h]
      rw [hsel]
      simp [load_profiles_aux, hobj, hid, htgt, hdup, hfeat, hnot, hrec, hprof]
    · have hsel : selectedProfiles (raw :: rest) only = selectedProfiles rest only := by
        simp only [selectedProfiles, List.filter_cons]
        rw [hpid, if_neg hkeep]
      have hnot : (!only.isEmpty && !only.any (fun s => decide (s = pid))) = true := by
        rcases Bool.or_eq_false_iff.mp (Bool.eq_false_iff.mpr hkeep) with ⟨h1, h2⟩
        simp [h1, h2]
      rw [hsel]
      simp [load_profiles_aux, hobj, hid, htgt, hdup, hfeat, hnot, hrec]

theorem load_profiles_aux_ok_sound (only : List String) :
    ∀ (raws : List JValue) (seen : List String) (acc res : List Profile),
      load_profiles_aux only raws seen acc = .ok res →
      (∀ raw ∈ raws, profileEntryOk raw = true) ∧ (raws.map profileIdOf).Nodup ∧
      (∀ raw ∈ raws, seen.any (fun s => decide (s = profileIdOf raw)) = false)
  | [], seen, acc, res, _ => by simp
  | raw :: rest, seen, acc, res, h => by
    simp only [load_profiles_aux] at h
    by_cases hobj : isJObj raw
    swap
    · simp [hobj] at h
    rcases hid : getStrField raw "id" with _ | pid
    · rcases htgt : getStrField raw "target" with _ | tgt <;>
        simp [hobj, hid, htgt] at h
    rcases htgt : getStrField raw "target" with _ | tgt
    · simp [hobj, hid, htgt] at h
    by_cases hdup : seen.any (fun s => decide (s = pid)) = true
    · simp [hobj, hid, htgt, hdup] at h
    rcases hfeat : strListOfJ ((raw.get "features").getD (.jlist [])) with _ | feats
    · simp [hobj, hid, htgt, hdup, hfeat] at h
    simp only [hobj, hid, htgt, hfeat, Bool.not_true, if_false,
      Bool.false_eq_true, eq_iff_iff, iff_false] at h
    rw [if_neg (by simp [hdup])] at h
    have hpid : profileIdOf raw = pid := by simp [profileIdOf, hid]
    have hnext : ∃ acc2, load_profiles_aux only rest (seen ++ [pid]) acc2 = .ok res := by
      split at h
      · exact ⟨_, h⟩
      · exact ⟨_, h⟩
    obtain ⟨acc2, hacc2⟩ := hnext
    obtain ⟨ih1, ih2, ih3⟩ :=
      load_profiles_aux_ok_sound only rest (seen ++ [pid]) acc2 res hacc2
    refine ⟨?_, ?_, ?_⟩
    · intro r hr
      rcases List.mem_cons.mp hr with rfl | hr
      · simp [profileEntryOk, hobj, hid, htgt, hfeat]
      · exact ih1 r hr
    · rw [List.map_cons, List.nodup_cons]
      constructor
      · rw [hpid]
        intro hmem
        obtain ⟨r, hr, hrid⟩ := List.mem_map.mp hmem
        have h3 := ih3 r hr
        rw [List.any_append] at h3
        simp [hrid] at h3
      · exact ih2
    · intro r hr
      rcases List.mem_cons.mp hr with rfl | hr
      · rw [hpid]; exact Bool.eq_false_iff.mpr hdup
      · have h3 := ih3 r hr
        rw [List.any_append] at h3
        exact (Bool.or_eq_false_iff.mp h3).1

theorem load_profiles_aux_error_kind (only : List String) :
    ∀ (raws : List JValue) (seen : List String) (acc : List Profile),
      (∃ res, load_profiles_aux only raws seen acc = .ok res) ∨
      (∃ msg, load_profiles_aux only raws seen acc = .error (.policyError msg))
  | [], seen, acc => Or.inl ⟨acc, rfl⟩
  | raw :: rest, seen, acc => by
    by_cases hobj : isJObj raw
    swap
    · exact Or.inr ⟨"profiles entries must be objects",
        by simp [load_profiles_aux, hobj]⟩
    rcases hid : getStrField raw "id" with _ | pid
    · rcases htgt : getStrField raw "target" with _ | tgt <;>
        exact Or.inr ⟨"profile id/target must be strings",
          by simp [load_profiles_aux, hobj, hid, htgt]⟩
    rcases htgt : getStrField raw "target" with _ | tgt
    · exact Or.inr ⟨"profile id/target must be strings",
        by simp [load_profiles_aux, hobj, hid, htgt]⟩
    by_cases hdup : seen.any (fun s => decide (s = pid)) = true
    · exact Or.inr ⟨"duplicate profile id: " ++ pid,
        by simp [load_profiles_aux, hobj, hid, htgt, hdup]⟩
    rcases hfeat : strListOfJ ((raw.get "features").getD (.jlist [])) with _ | feats
    · exact Or.inr ⟨"profile " ++ pid ++ ": features must be a list[str]",
        by simp [load_profiles_aux, hobj, hid, htgt, hdup, hfeat]⟩
    have hred : ∀ acc2, load_profiles_aux only (raw :: rest) seen acc2 =
        if (!only.isEmpty && !only.any (fun s => decide (s = pid))) = true then
          load_profiles_aux only rest (seen ++ [pid]) acc2
        else
          load_profiles_aux only rest (seen ++ [pid]) (acc2 ++
            [{ profile_id := pid, target := tgt,
               all_features := ((raw.get "all_features").getD (.jbool false)).truthy,
               no_default_features :=
                 ((raw.get "no_default_features").getD (.jbool false)).truthy,
               features := pySorted pyStrLe feats }]) := by
      intro acc2
      simp [load_profiles_aux, hobj, hid, htgt, hdup, hfeat]
    rw [hred]
    by_cases hkeep : (!only.isEmpty && !only.any (fun s => decide (s = pid))) = true
    · rw [if_pos hkeep]
      exact load_profiles_aux_error_kind only rest (seen ++ [pid]) acc
    · rw [if_neg hkeep]
      exact load_profiles_aux_error_kind only rest (seen ++ [pid]) _

/-- C3 counterexample: the claim says selection must fail whenever any
requested id is unknown, but requesting the unknown id `bogus` together
with the known id `a` succeeds — `load_profiles` only rejects a request
whose ids are all unknown (empty selection). -/
theorem C3_unknown_requested_id_accepted :
    load_profiles [.jobj [("id", .jstr "a"), ("target", .jstr "t")]]
      ["a", "bogus"] = .ok [⟨"a", "t", false, false, []⟩] ∧
    (∀ raw ∈ [JValue.jobj [("id", .jstr "a"), ("target", .jstr "t")]],
      profileIdOf raw ≠ "bogus") := by decide

/-- C3 (amended): for well-formed profile entries with distinct ids and a
non-empty requested subset, selection fails exactly when no requested id
matches any configured id — equivalently, when the resulting selection is
empty; otherwise the selected profiles are returned in their original
configured order.  A partially-unknown subset with at least one match is
accepted. -/
theorem C3_profile_selection (raws : List JValue) (only : List String)
    (hok : ∀ raw ∈ raws, profileEntryOk raw = true)
    (hnodup : (raws.map profileIdOf).Nodup) :
    (only ≠ [] → selectedProfiles raws only = [] →
      load_profiles raws only =
        .error (.policyError "--only-profile selected unknown profile(s)")) ∧
    ((only = [] ∨ selectedProfiles raws only ≠ []) →
      load_profiles raws only = .ok (selectedProfiles raws only)) := by
  have haux := load_profiles_aux_eq only raws [] [] hok hnodup (by simp)
  constructor
  · intro honly hempty
    have hne : only.isEmpty = false := by
      cases only
      · exact absurd rfl honly
      · rfl
    simp [load_profiles, haux, hempty, hne]
  · intro hcase
    rcases hcase with rfl | hne
    · simp [load_profiles, haux]
    · have : (selectedProfiles raws only).isEmpty = false := by
        cases hsel : selectedProfiles raws only
        · exact absurd hsel hne
        · rfl
      simp [load_profiles, haux, this]

/-- Closed instance of `C3_profile_selection`: requesting only the unknown
id `zzz` is rejected, while requesting `a` returns exactly the profile
`a`. -/
theorem C3_profile_selection_witness :
    load_profiles [.jobj [("id", .jstr "a"), ("target", .jstr "t")]] ["zzz"] =
      .error (.policyError "--only-profile selected unknown profile(s)") ∧
    load_profiles [.jobj [("id", .jstr "a"), ("target", .jstr "t")]] ["a"] =
      .ok [⟨"a", "t", false, false, []⟩] := by
  constructor
  · exact (C3_profile_selection [.jobj [("id", .jstr "a"), ("target", .jstr "t")]]
      ["zzz"] (by decide) (by decide)).1 (by decide) (by decide)
  · have h := (C3_profile_selection [.jobj [("id", .jstr "a"), ("target", .jstr "t")]]
      ["a"] (by decide) (by decide)).2 (Or.inr (by decide))
    rw [h]
    decide

/-- C10: every configured profile entry is validated before the requested
subset filter applies: a malformed entry or a duplicated profile id makes
`load_profiles` raise a `PolicyError` for every requested subset, even one
that excludes the offending entry. -/
theorem C10_validation_precedes_filter (raws : List JValue) (only : List String)
    (hbad : (∃ raw ∈ raws, profileEntryOk raw = false) ∨
      ¬ (raws.map profileIdOf).Nodup) :
    ∃ msg, load_profiles raws only = .error (.policyError msg) := by
  rcases load_profiles_aux_error_kind only raws [] [] with ⟨res, hres⟩ | ⟨msg, hmsg⟩
  · obtain ⟨hall, hnodup, _⟩ := load_profiles_aux_ok_sound only raws [] [] res hres
    exfalso
    rcases hbad with ⟨raw, hraw, hfalse⟩ | hdup
    · rw [hall raw hraw] at hfalse
      exact Bool.true_eq_false ▸ hfalse ▸ rfl
    · exact hdup hnodup
  · exact ⟨msg, by simp [load_profiles, hmsg]⟩

/-- Closed instance of `C10_validation_precedes_filter`: a malformed second
entry (id `b`, missing target) still aborts loading although only profile
`a` was requested. -/
theorem C10_validation_precedes_filter_witness :
    ∃ msg, load_profiles
      [.jobj [("id", .jstr "a"), ("target", .jstr "t")],
       .jobj [("id", .jstr "b")]] ["a"] = .error (.policyError msg) :=
  C10_validation_precedes_filter _ ["a"]
    (Or.inl ⟨.jobj [("id", .jstr "b")],
      List.mem_cons_of_mem _ (List.mem_cons_self _ _), by decide⟩)

/-- C2: ancestor-stack maintenance in `scan_profile`: a depth-0 line resets
the stack to the single crate; a line of depth d > 0 pops entries until at
most d remain (keeping the first d), pads with `<missing-parent>` entries
until the length equals d, then pushes the crate — so the new stack has
length d+1, preserves the retained prefix, holds placeholders at the
skipped depths, and ends with the crate; each recorded finding's chain is a
snapshot of the stack after the push; and the claim's two concrete line
sequences produce exactly the claimed chains. -/
theorem C2_stack_discipline :
    (∀ stack crate, nextStack stack 0 crate = [crate]) ∧
    (∀ (stack : List String) (depth : Nat) (crate : String), 0 < depth →
      (nextStack stack depth crate).length = depth + 1 ∧
      (∀ i : Nat, i < min depth stack.length →
        (nextStack stack depth crate)[i]? = stack[i]?) ∧
      (∀ i : Nat, stack.length ≤ i → i < depth →
        (nextStack stack depth crate)[i]? = some "<missing-parent>") ∧
      (nextStack stack depth crate)[depth]? = some crate) ∧
    (∀ fromIso profile fm cm tm now raw rest stack acc depth crate version cls,
      parse_tree_line raw = .ok (depth, crate, version) →
      classify_dependency fromIso crate fm cm tm now = .ok cls →
      cls.decision ≠ "allowed" →
      scanLinesAux fromIso profile fm cm tm now (raw :: rest) stack acc =
        scanLinesAux fromIso profile fm cm tm now rest (nextStack stack depth crate)
          (acc ++ [mkFinding profile crate version (nextStack stack depth crate) cls])) ∧
    ((scanLinesAux sampleFromIso sampleProfile [] chainCond [] 0
        ["0 app v1", "1 serde v1", "2 serde_derive v1"] [] []).map
      (List.map Finding.transitive_chain) =
      .ok [["app"], ["app", "serde"], ["app", "serde", "serde_derive"]]) ∧
    ((scanLinesAux sampleFromIso sampleProfile [] chainCond [] 0
        ["0 app v1", "2 deep v1"] [] []).map (List.map Finding.transitive_chain) =
      .ok [["app"], ["app", "<missing-parent>", "deep"]]) := by
  refine ⟨?_, ?_, ?_, by decide, by decide⟩
  · intro stack crate
    simp [nextStack]
  · intro stack depth crate hd
    have hne : ¬ depth = 0 := Nat.pos_iff_ne_zero.mp hd
    refine ⟨?_, ?_, ?_, ?_⟩
    · simp only [nextStack, if_neg hne, List.length_append, List.length_take,
        List.length_replicate, List.length_cons, List.length_nil]
      omega
    · intro i hi
      simp only [nextStack, if_neg hne, List.append_assoc]
      rw [List.getElem?_append_left (by simp only [List.length_take]; omega)]
      rw [List.getElem?_take_of_lt (by omega)]
    · intro i h1 h2
      simp only [nextStack, if_neg hne, List.append_assoc]
      rw [List.getElem?_append_right (by simp only [List.length_take]; omega)]
      rw [List.getElem?_append_left
        (by simp only [List.length_take, List.length_replicate]; omega)]
      rw [List.getElem?_replicate]
      rw [if_pos (by simp only [List.length_take]; omega)]
    · simp only [nextStack, if_neg hne, List.append_assoc]
      rw [List.getElem?_append_right (by simp only [List.length_take]; omega)]
      rw [List.getElem?_append_right
        (by simp only [List.length_take, List.length_replicate]; omega)]
      have h0 : depth - (List.take depth stack).length -
          (List.replicate (depth - stack.length) "<missing-parent>").length = 0 := by
        simp only [List.length_take, List.length_replicate]
        omega
      rw [h0]
      rfl
  · intro fromIso profile fm cm tm now raw rest stack acc depth crate version cls
      hparse hcls hallow
    simp only [scanLinesAux, hparse, hcls]
    rw [if_neg hallow]

/-- Closed instance of `C2_stack_discipline`: the depth-0 reset, the
pop-pad-push shape on a concrete stack, and one concrete snapshot-recording
step. -/
theorem C2_stack_discipline_witness :
    nextStack ["x", "y"] 0 "app" = ["app"] ∧
    (nextStack ["a"] 2 "c").length = 3 ∧
    (nextStack ["a"] 2 "c")[1]? = some "<missing-parent>" ∧
    (nextStack ["a"] 2 "c")[2]? = some "c" ∧
    scanLinesAux sampleFromIso sampleProfile [] chainCond [] 0
        ["1 serde v1"] ["app"] [] =
      scanLinesAux sampleFromIso sampleProfile [] chainCond [] 0 []
        (nextStack ["app"] 1 "serde")
        ([] ++ [mkFinding sampleProfile "serde" "v1" (nextStack ["app"] 1 "serde")
          ⟨"conditional", "r", "m", 1, "none", none⟩]) := by
  refine ⟨C2_stack_discipline.1 ["x", "y"] "app", ?_, ?_, ?_, ?_⟩
  · exact (C2_stack_discipline.2.1 ["a"] 2 "c" (by decide)).1
  · exact (C2_stack_discipline.2.1 ["a"] 2 "c" (by decide)).2.2.1 1
      (by decide) (by decide)
  · exact (C2_stack_discipline.2.1 ["a"] 2 "c" (by decide)).2.2.2
  · exact C2_stack_discipline.2.2.1 sampleFromIso sampleProfile [] chainCond [] 0
      "1 serde v1" [] ["app"] [] 1 "serde" "v1"
      ⟨"conditional", "r", "m", 1, "none", none⟩ (by decide) (by decide) (by decide)

/-- A parse failure on any line of a profile listing makes the whole scan
loop fail (the exception propagates out of `scan_profile`). -/
theorem scanLinesAux_error_of_parse_error (fromIso : String → IsoParse)
    (profile : Profile) (fm cm : List (String × PolicyEntry))
    (tm : List (String × Transition)) (now : Int) :
    ∀ (lines : List String) (stack : List String) (acc : List Finding),
      (∃ l ∈ lines, ∃ e, parse_tree_line l = .error e) →
      ∃ e2, scanLinesAux fromIso profile fm cm tm now lines stack acc = .error e2
  | [], _, _, h => by simp at h
  | raw :: rest, stack, acc, h => by
    obtain ⟨l, hl, e, he⟩ := h
    rcases List.mem_cons.mp hl with rfl | hl
    · exact ⟨e, by simp [scanLinesAux, he]⟩
    rcases hp : parse_tree_line raw with e' | trip
    · exact ⟨e', by simp [scanLinesAux, hp]⟩
    obtain ⟨depth, crate, version⟩ := trip
    rcases hc : classify_dependency fromIso crate fm cm tm now with e' | cls
    · exact ⟨e', by simp [scanLinesAux, hp, hc]⟩
    by_cases hall : cls.decision = "allowed"
    · obtain ⟨e2, h2⟩ := scanLinesAux_error_of_parse_error fromIso profile fm cm tm
        now rest (nextStack stack depth crate) acc ⟨l, hl, e, he⟩
      exact ⟨e2, by simp [scanLinesAux, hp, hc, hall, h2]⟩
    · obtain ⟨e2, h2⟩ := scanLinesAux_error_of_parse_error fromIso profile fm cm tm
        now rest (nextStack stack depth crate)
        (acc ++ [mkFinding profile crate version (nextStack stack depth crate) cls])
        ⟨l, hl, e, he⟩
      exact ⟨e2, by simp [scanLinesAux, hp, hc, hall, h2]⟩

/-- C8: `parse_tree_line` fails exactly when the stripped line does not
match the depth-prefix regex or the payload (after ` (*)` removal) yields
fewer than two whitespace-separated tokens; when the line parses and the
version token does not start with the `v` marker, the result carries the
sentinel `v?` instead of failing; and a parse failure on any line aborts
the entire profile scan. -/
theorem C8_parse_tree_line_spec :
    (∀ raw : String,
      (∃ e, parse_tree_line raw = .error e) ↔
        (treeLineMatch (stripChars raw.data) = none ∨
         ∃ g1 g2, treeLineMatch (stripChars raw.data) = some (g1, g2) ∧
           (splitWsChars (removeAllFuel " (*)".data (stripChars g2).length
             (stripChars g2)) []).length < 2)) ∧
    (∀ (raw : String) (g1 g2 crate ver : List Char) (rest : List (List Char)),
      treeLineMatch (stripChars raw.data) = some (g1, g2) →
      splitWsChars (removeAllFuel " (*)".data (stripChars g2).length
        (stripChars g2)) [] = crate :: ver :: rest →
      "v".data.isPrefixOf ver = false →
      parse_tree_line raw = .ok (digitsToNat g1, String.mk crate, "v?")) ∧
    (∀ fromIso profile fm cm tm now lines stack acc,
      (∃ l ∈ lines, ∃ e, parse_tree_line l = .error e) →
      ∃ e2, scanLinesAux fromIso profile fm cm tm now lines stack acc = .error e2) := by
  refine ⟨?_, ?_, fun fromIso profile fm cm tm now lines stack acc h =>
    scanLinesAux_error_of_parse_error fromIso profile fm cm tm now lines stack acc h⟩
  · intro raw
    rcases hm : treeLineMatch (stripChars raw.data) with _ | ⟨g1, g2⟩
    · simp [parse_tree_line, hm]
    · simp only [parse_tree_line, hm, Option.some.injEq, Prod.mk.injEq]
      by_cases hemp : (stripChars g2).isEmpty
      · have hnil : stripChars g2 = [] := List.isEmpty_iff.mp hemp
        constructor
        · intro _
          refine Or.inr ⟨g1, g2, ⟨rfl, rfl⟩, ?_⟩
          rw [hnil]
          simp [removeAllFuel, splitWsChars]
        · intro _
          rw [if_pos hemp]
          exact ⟨_, rfl⟩
      · rw [if_neg hemp]
        rcases hsplit : splitWsChars (removeAllFuel " (*)".data
            (stripChars g2).length (stripChars g2)) [] with _ | ⟨crate, ws⟩
        · have hsplit2 : splitWsChars (removeAllFuel [' ', '(', '*', ')']
              (stripChars g2).length (stripChars g2)) [] = [] := hsplit
          constructor
          · intro _
            exact Or.inr ⟨g1, g2, ⟨rfl, rfl⟩, by rw [hsplit2]; simp⟩
          · intro _
            exact ⟨_, rfl⟩
        · rcases ws with _ | ⟨ver, rest⟩
          · have hsplit2 : splitWsChars (removeAllFuel [' ', '(', '*', ')']
                (stripChars g2).length (stripChars g2)) [] = [crate] := hsplit
            constructor
            · intro _
              exact Or.inr ⟨g1, g2, ⟨rfl, rfl⟩, by rw [hsplit2]; simp⟩
            · intro _
              exact ⟨_, rfl⟩
          · have hsplit2 : splitWsChars (removeAllFuel [' ', '(', '*', ')']
                (stripChars g2).length (stripChars g2)) [] =
                crate :: ver :: rest := hsplit
            constructor
            · rintro ⟨e, he⟩
              simp at he
            · rintro (h | ⟨g1x, g2x, ⟨rfl, rfl⟩, hlen⟩)
              · exact Option.noConfusion h
              · rw [hsplit2] at hlen
                simp at hlen
                exact absurd hlen (by omega)
  · intro raw g1 g2 crate ver rest hm hsplit hver
    have hemp : (stripChars g2).isEmpty = false := by
      rcases hg : stripChars g2 with _ | ⟨c, cs⟩
      · rw [hg] at hsplit
        simp [removeAllFuel, splitWsChars] at hsplit
      · rfl
    simp only [parse_tree_line, hm, hemp, Bool.false_eq_true, if_false, hsplit, hver]

/-- Closed instance of `C8_parse_tree_line_spec`: a malformed line is
rejected, a well-formed line whose version token lacks the `v` marker gets
the sentinel `v?`, and one bad line aborts a concrete scan. -/
theorem C8_parse_tree_line_spec_witness :
    (∃ e, parse_tree_line "abc" = .error e) ∧
    parse_tree_line "1 serde 1.2" = .ok (1, "serde", "v?") ∧
    (∃ e2, scanLinesAux sampleFromIso sampleProfile [] chainCond [] 0
      ["0 app v1", "oops"] [] [] = .error e2) := by
  refine ⟨?_, ?_, ?_⟩
  · exact (C8_parse_tree_line_spec.1 "abc").mpr (Or.inl (by decide))
  · exact C8_parse_tree_line_spec.2.1 "1 serde 1.2" ['1'] " serde 1.2".data
      "serde".data "1.2".data [] (by decide) (by decide) (by decide)
  · exact C8_parse_tree_line_spec.2.2 sampleFromIso sampleProfile [] chainCond [] 0
      ["0 app v1", "oops"] [] []
      ⟨"oops", by decide,
        ⟨.policyError "invalid cargo tree line format: oops", by decide⟩⟩

/-- C4 counterexample: when the external `cargo tree` invocation fails,
`main` dies with an uncaught `RuntimeError` and the process exits with
code 1 — the same code as a gate failure, not a distinct configuration-error
code. -/
theorem C4_cargo_failure_exit_code_not_distinct :
    main_result sampleFromIso sampleDoc []
      (fun _ => .error (.runtimeError "cargo tree failed")) 0 =
      .error (.runtimeError "cargo tree failed") ∧
    process_exit_code (main_result sampleFromIso sampleDoc []
      (fun _ => .error (.runtimeError "cargo tree failed")) 0) = 1 ∧
    process_exit_code (.ok false) = 1 := by decide

/-- C4 (amended): the exit code is 0 for a passing gate, 1 for a failing
gate, and the distinct code 2 for configuration/parse errors raised as
`PolicyError` (invalid policy document, unknown or empty profile
selection); an external-tool failure, however, raises `RuntimeError`, which
the `__main__` guard does not catch, so the interpreter exits with the
unhandled-exception code 1, not a code distinct from the gate-failure
code. -/
theorem C4_process_exit_codes (fromIso : String → IsoParse) (doc : JValue)
    (only : List String) (cargoOut : Profile → Except PError (List String))
    (now : Int) :
    (main_result fromIso doc only cargoOut now = .ok true →
      process_exit_code (main_result fromIso doc only cargoOut now) = 0) ∧
    (main_result fromIso doc only cargoOut now = .ok false →
      process_exit_code (main_result fromIso doc only cargoOut now) = 1) ∧
    (∀ msg, main_result fromIso doc only cargoOut now = .error (.policyError msg) →
      process_exit_code (main_result fromIso doc only cargoOut now) = 2) ∧
    (∀ msg, main_result fromIso doc only cargoOut now = .error (.runtimeError msg) →
      process_exit_code (main_result fromIso doc only cargoOut now) = 1) := by
  refine ⟨fun h => by rw [h]; rfl, fun h => by rw [h]; rfl,
    fun msg h => by rw [h]; rfl, fun msg h => by rw [h]; rfl⟩

/-- Closed instance of `C4_process_exit_codes`: a passing run exits 0, a
run that finds a forbidden crate exits 1, an invalid policy document exits
2, and a failed `cargo tree` exits 1. -/
theorem C4_process_exit_codes_witness :
    process_exit_code (main_result sampleFromIso sampleDoc []
      (fun _ => .ok ["0 app v1"]) 0) = 0 ∧
    process_exit_code (main_result sampleFromIso sampleDocForbidden []
      (fun _ => .ok ["0 tokio v1"]) 0) = 1 ∧
    process_exit_code (main_result sampleFromIso .jnull []
      (fun _ => .ok ["0 app v1"]) 0) = 2 ∧
    process_exit_code (main_result sampleFromIso sampleDoc []
      (fun _ => .error (.runtimeError "boom")) 0) = 1 := by
  refine ⟨?_, ?_, ?_, ?_⟩
  · exact (C4_process_exit_codes sampleFromIso sampleDoc []
      (fun _ => .ok ["0 app v1"]) 0).1 (by decide)
  · exact (C4_process_exit_codes sampleFromIso sampleDocForbidden []
      (fun _ => .ok ["0 tokio v1"]) 0).2.1 (by decide)
  · exact (C4_process_exit_codes sampleFromIso .jnull []
      (fun _ => .ok ["0 app v1"]) 0).2.2.1
      "unsupported or missing schema_version" (by decide)
  · exact (C4_process_exit_codes sampleFromIso sampleDoc []
      (fun _ => .error (.runtimeError "boom")) 0).2.2.2 "boom" (by decide)

/-! ### Finding-pipeline lemmas for the determinism claim -/

theorem scanLinesAux_profile_id (fromIso : String → IsoParse) (profile : Profile)
    (fm cm : List (String × PolicyEntry)) (tm : List (String × Transition))
    (now : Int) :
    ∀ (lines stack : List String) (acc res : List Finding),
      scanLinesAux fromIso profile fm cm tm now lines stack acc = .ok res →
      (∀ f ∈ acc, f.profile_id = profile.profile_id) →
      ∀ f ∈ res, f.profile_id = profile.profile_id
  | [], stack, acc, res, h, hacc => by
    simp only [scanLinesAux, Except.ok.injEq] at h
    exact h ▸ hacc
  | raw :: rest, stack, acc, res, h, hacc => by
    simp only [scanLinesAux] at h
    rcases hp : parse_tree_line raw with e | trip
    · rw [hp] at h; exact absurd h (by simp)
    obtain ⟨depth, crate, version⟩ := trip
    rw [hp] at h
    dsimp only at h
    rcases hc : classify_dependency fromIso crate fm cm tm now with e | cls
    · rw [hc] at h; exact absurd h (by simp)
    rw [hc] at h
    dsimp only at h
    by_cases hall : cls.decision = "allowed"
    · rw [if_pos hall] at h
      exact scanLinesAux_profile_id fromIso profile fm cm tm now rest _ acc res h hacc
    · rw [if_neg hall] at h
      refine scanLinesAux_profile_id fromIso profile fm cm tm now rest _ _ res h ?_
      intro f hf
      rcases List.mem_append.mp hf with hf | hf
      · exact hacc f hf
      · rcases List.mem_singleton.mp hf with rfl
        rfl

theorem scan_profile_findings_props (fromIso : String → IsoParse)
    (profile : Profile) (fm cm : List (String × PolicyEntry))
    (tm : List (String × Transition)) (now : Int) (lines : List String)
    (res : List Finding)
    (h : scan_profile_findings fromIso profile fm cm tm now lines = .ok res) :
    res.Nodup ∧ ∀ f ∈ res, f.profile_id = profile.profile_id := by
  simp only [scan_profile_findings] at h
  rcases hs : scanLinesAux fromIso profile fm cm tm now lines [] [] with e | fs
  · rw [hs] at h; exact absurd h (by simp)
  rw [hs] at h
  simp only [Except.ok.injEq] at h
  subst h
  constructor
  · exact (pySorted_perm findingLe fs.dedup).symm.nodup (List.nodup_dedup fs)
  · intro f hf
    have hmem : f ∈ fs := List.mem_dedup.mp
      ((pySorted_perm findingLe fs.dedup).mem_iff.mp hf)
    exact scanLinesAux_profile_id fromIso profile fm cm tm now lines [] [] fs hs
      (by simp) f hmem

theorem allFindingsOf_props (fromIso : String → IsoParse)
    (fm cm : List (String × PolicyEntry)) (tm : List (String × Transition))
    (now : Int) (cargoOut : Profile → Except PError (List String)) :
    ∀ (profiles : List Profile) (res : List Finding),
      allFindingsOf fromIso fm cm tm now cargoOut profiles = .ok res →
      (profiles.map Profile.profile_id).Nodup →
      res.Nodup ∧ ∀ f ∈ res, f.profile_id ∈ profiles.map Profile.profile_id
  | [], res, h, _ => by
    simp only [allFindingsOf, Except.ok.injEq] at h
    subst h
    simp
  | p :: ps, res, h, hnodup => by
    simp only [allFindingsOf] at h
    rcases hco : cargoOut p with e | lines
    · rw [hco] at h; exact absurd h (by simp)
    rw [hco] at h
    dsimp only at h
    rcases hsc : scan_profile_findings fromIso p fm cm tm now lines with e | fs
    · rw [hsc] at h; exact absurd h (by simp)
    rw [hsc] at h
    dsimp only at h
    rcases hrest : allFindingsOf fromIso fm cm tm now cargoOut ps with e | rest
    · rw [hrest] at h; exact absurd h (by simp)
    rw [hrest] at h
    dsimp only at h
    simp only [Except.ok.injEq] at h
    subst h
    rw [List.map_cons, List.nodup_cons] at hnodup
    obtain ⟨hfs_nodup, hfs_pid⟩ := scan_profile_findings_props fromIso p fm cm tm
      now lines fs hsc
    obtain ⟨hrest_nodup, hrest_pid⟩ := allFindingsOf_props fromIso fm cm tm now
      cargoOut ps rest hrest hnodup.2
    constructor
    · refine hfs_nodup.append hrest_nodup ?_
      intro f hf1 hf2
      have h1 := hfs_pid f hf1
      have h2 := hrest_pid f hf2
      rw [h1] at h2
      exact hnodup.1 h2
    · intro f hf
      rw [List.map_cons]
      rcases List.mem_append.mp hf with hf | hf
      · rw [hfs_pid f hf]
        exact List.mem_cons_self _ _
      · exact List.mem_cons_of_mem _ (hrest_pid f hf)

theorem load_profiles_aux_res_ids_nodup (only : List String) :
    ∀ (raws : List JValue) (seen : List String) (acc res : List Profile),
      load_profiles_aux only raws seen acc = .ok res →
      (∀ p ∈ acc, p.profile_id ∈ seen) →
      (acc.map Profile.profile_id).Nodup →
      (res.map Profile.profile_id).Nodup
  | [], seen, acc, res, h, _, hnodup => by
    simp only [load_profiles_aux, Except.ok.injEq] at h
    exact h ▸ hnodup
  | raw :: rest, seen, acc, res, h, hseen, hnodup => by
    simp only [load_profiles_aux] at h
    by_cases hobj : isJObj raw
    swap
    · simp [hobj] at h
    rcases hid : getStrField raw "id" with _ | pid
    · rcases htgt : getStrField raw "target" with _ | tgt <;>
        simp [hobj, hid, htgt] at h
    rcases htgt : getStrField raw "target" with _ | tgt
    · simp [hobj, hid, htgt] at h
    by_cases hdup : seen.any (fun s => decide (s = pid)) = true
    · simp [hobj, hid, htgt, hdup] at h
    rcases hfeat : strListOfJ ((raw.get "features").getD (.jlist [])) with _ | feats
    · simp [hobj, hid, htgt, hdup, hfeat] at h
    simp only [hobj, hid, htgt, hfeat, Bool.not_true, if_false,
      Bool.false_eq_true, eq_iff_iff, iff_false] at h
    rw [if_neg (by simp [hdup])] at h
    have hpid_notin : pid ∉ seen := by
      intro hmem
      exact hdup (List.any_eq_true.mpr ⟨pid, hmem, by simp⟩)
    split at h
    · exact load_profiles_aux_res_ids_nodup only rest (seen ++ [pid]) acc res h
        (fun p hp => List.mem_append_left _ (hseen p hp)) hnodup
    · refine load_profiles_aux_res_ids_nodup only rest (seen ++ [pid]) _ res h ?_ ?_
      · intro p hp
        rcases List.mem_append.mp hp with hp | hp
        · exact List.mem_append_left _ (hseen p hp)
        · rcases List.mem_singleton.mp hp with rfl
          exact List.mem_append_right _ (List.mem_singleton_self _)
      · rw [List.map_append, List.map_singleton]
        refine List.Nodup.append hnodup (List.nodup_singleton _) ?_
        intro x hx hx2
        rcases List.mem_singleton.mp hx2 with rfl
        obtain ⟨p, hp, hpx⟩ := List.mem_map.mp hx
        exact hpid_notin (hpx ▸ hseen p hp)

theorem load_profiles_ids_nodup (raws : List JValue) (only : List String)
    (res : List Profile) (h : load_profiles raws only = .ok res) :
    (res.map Profile.profile_id).Nodup := by
  simp only [load_profiles] at h
  rcases haux : load_profiles_aux only raws [] [] with e | profiles
  · rw [haux] at h; exact absurd h (by simp)
  rw [haux] at h
  dsimp only at h
  have hres : profiles = res := by
    by_cases hc : (!only.isEmpty && profiles.isEmpty) = true
    · rw [if_pos hc] at h; exact absurd h (by simp)
    · rw [if_neg hc] at h
      exact Except.ok.inj h
  subst hres
  exact load_profiles_aux_res_ids_nodup only raws [] [] profiles haux
    (by simp) (by simp)

/-- C9: the final finding sequence `main` reports is duplicate-free
(identical findings are collapsed per profile by set semantics, and the
distinct profile ids keep profiles apart) and sorted ascending by the key
`(profile_id, decision, crate, version, chain joined by ">")`; and the
pipeline is a pure function of the policy document, the dependency
listings and `now`, so a second run on identical inputs returns the
identical finding sequence and the identical verdict. -/
theorem C9_findings_nodup_sorted_deterministic (fromIso : String → IsoParse)
    (doc : JValue) (only : List String)
    (cargoOut : Profile → Except PError (List String)) (now : Int)
    (fs : List Finding)
    (h : main_findings fromIso doc only cargoOut now = .ok fs) :
    fs.Nodup ∧ fs.Pairwise (fun a b => findingLe a b = true) ∧
    (∀ (doc2 : JValue) (cargoOut2 : Profile → Except PError (List String))
        (now2 : Int), doc2 = doc → (∀ p, cargoOut2 p = cargoOut p) → now2 = now →
      main_findings fromIso doc2 only cargoOut2 now2 = .ok fs ∧
      main_result fromIso doc2 only cargoOut2 now2 =
        main_result fromIso doc only cargoOut now) := by
  have hdet : ∀ (doc2 : JValue) (cargoOut2 : Profile → Except PError (List String))
      (now2 : Int), doc2 = doc → (∀ p, cargoOut2 p = cargoOut p) → now2 = now →
      main_findings fromIso doc2 only cargoOut2 now2 = .ok fs ∧
      main_result fromIso doc2 only cargoOut2 now2 =
        main_result fromIso doc only cargoOut now := by
    intro doc2 cargoOut2 now2 h1 h2 h3
    subst h1
    subst h3
    have hco : cargoOut2 = cargoOut := funext h2
    subst hco
    exact ⟨h, rfl⟩
  simp only [main_findings] at h
  rcases hpol : load_policy doc with e | policy <;> rw [hpol] at h
  · exact absurd h (by simp)
  dsimp only at h
  rcases hfm : load_entry_map (listField policy "forbidden_crates")
      "forbidden_crates" with e | fm <;> rw [hfm] at h
  · exact absurd h (by simp)
  dsimp only at h
  rcases hcm : load_entry_map (listField policy "conditional_crates")
      "conditional_crates" with e | cm <;> rw [hcm] at h
  · exact absurd h (by simp)
  dsimp only at h
  rcases htm : load_transitions fromIso (listField policy "transitions")
      with e | tm <;> rw [htm] at h
  · exact absurd h (by simp)
  dsimp only at h
  rcases hv : validate_policy_cross_refs fm cm tm with e | u <;> rw [hv] at h
  · exact absurd h (by simp)
  dsimp only at h
  rcases hprof : load_profiles (listField policy "profiles") only
      with e | profiles <;> rw [hprof] at h
  · exact absurd h (by simp)
  dsimp only at h
  by_cases hemp : profiles.isEmpty
  · rw [if_pos hemp] at h; exact absurd h (by simp)
  rw [if_neg hemp] at h
  rcases hall : allFindingsOf fromIso fm cm tm now cargoOut profiles
      with e | all <;> rw [hall] at h
  · exact absurd h (by simp)
  dsimp only at h
  have hfs : fs = pySorted findingLe all := (Except.ok.inj h).symm
  obtain ⟨hnodup, _⟩ := allFindingsOf_props fromIso fm cm tm now cargoOut
    profiles all hall (load_profiles_ids_nodup _ only profiles hprof)
  subst hfs
  refine ⟨(pySorted_perm findingLe all).symm.nodup hnodup, ?_, hdet⟩
  exact pySorted_sorted findingLe findingLe_total
    (fun x y z hxy hyz => findingLe_trans hxy hyz) all

/-- Closed instance of `C9_findings_nodup_sorted_deterministic` on a
concrete run that records one forbidden finding. -/
theorem C9_findings_nodup_sorted_deterministic_witness :
    ∃ fs : List Finding,
      main_findings sampleFromIso sampleDocForbidden []
        (fun _ => .ok ["0 tokio v1"]) 0 = .ok fs ∧
      fs.Nodup ∧ fs.Pairwise (fun a b => findingLe a b = true) ∧
      main_findings sampleFromIso sampleDocForbidden []
        (fun _ => .ok ["0 tokio v1"]) 0 = .ok fs := by
  have h : main_findings sampleFromIso sampleDocForbidden []
      (fun _ => .ok ["0 tokio v1"]) 0 =
      .ok [⟨"a", "t", "tokio", "v1", ["tokio"], "forbidden", "r", "m", 9,
        "none", none⟩] := by decide
  obtain ⟨h1, h2, h3⟩ := C9_findings_nodup_sorted_deterministic sampleFromIso
    sampleDocForbidden [] (fun _ => .ok ["0 tokio v1"]) 0 _ h
  exact ⟨_, h, h1, h2, (h3 sampleDocForbidden (fun _ => .ok ["0 tokio v1"]) 0
    rfl (fun _ => rfl) rfl).1⟩

/-! ### Policy-loading lemmas for the rejection claim -/

theorem hasKey_append {α : Type} (a b : List (String × α)) (k : String) :
    hasKey (a ++ b) k = (hasKey a k || hasKey b k) :=
  List.any_append

theorem hasKey_iff_mem {α : Type} (m : List (String × α)) (k : String) :
    hasKey m k = true ↔ k ∈ m.map Prod.fst := by
  simp only [hasKey, List.any_eq_true, List.mem_map, decide_eq_true_eq]

theorem load_entry_map_aux_ok_sound (sec : String) :
    ∀ (entries : List JValue) (acc res : List (String × PolicyEntry)),
      load_entry_map_aux sec entries acc = .ok res →
      (∀ raw ∈ entries, entryRawOk raw = true) ∧
      (entryNamesOf entries).Nodup ∧
      (∀ n ∈ entryNamesOf entries, hasKey acc n = false) ∧
      res.map Prod.fst = acc.map Prod.fst ++ entryNamesOf entries
  | [], acc, res, h => by
    simp only [load_entry_map_aux, Except.ok.injEq] at h
    subst h
    simp [entryNamesOf]
  | raw :: rest, acc, res, h => by
    simp only [load_entry_map_aux] at h
    by_cases hobj : isJObj raw
    swap
    · simp [hobj] at h
    rcases hname : getStrField raw "name" with _ | name
    · simp [hobj, hname] at h
    rcases hreason : getStrField raw "reason" with _ | reason
    · simp [hobj, hname, hreason] at h
    by_cases hrb : (stripChars reason.data).isEmpty
    · simp [hobj, hname, hreason, hrb] at h
    rcases hrem : getStrField raw "remediation" with _ | remediation
    · simp [hobj, hname, hreason, hrb, hrem] at h
    by_cases hmb : (stripChars remediation.data).isEmpty
    · simp [hobj, hname, hreason, hrb, hrem, hmb] at h
    rcases hrisk : (raw.get "risk_score").bind JValue.asInt with _ | n
    · simp [hobj, hname, hreason, hrb, hrem, hmb, hrisk] at h
    by_cases hrange : (0 ≤ n ∧ n ≤ 100)
    swap
    · simp [hobj, hname, hreason, hrb, hrem, hmb, hrisk, hrange] at h
    by_cases hkey : hasKey acc name = true
    · simp [hobj, hname, hreason, hrb, hrem, hmb, hrisk, hrange, hkey] at h
    simp only [hobj, hname, hreason, hrem, hrisk, Bool.not_true, if_false] at h
    rw [if_neg hrb] at h
    rw [if_neg hmb] at h
    rw [if_neg (show ¬((!decide (0 ≤ n ∧ n ≤ 100)) = true) by simp [hrange])] at h
    rw [if_neg hkey] at h
    obtain ⟨ih1, ih2, ih3, ih4⟩ := load_entry_map_aux_ok_sound sec rest
      (acc ++ [(name, PolicyEntry.mk name reason remediation n)]) res h
    have hnames : entryNamesOf (raw :: rest) = name :: entryNamesOf rest := by
      simp [entryNamesOf, List.filterMap_cons, hname]
    refine ⟨?_, ?_, ?_, ?_⟩
    · intro r hr
      rcases List.mem_cons.mp hr with rfl | hr
      · simp [entryRawOk, hobj, hname, hreason, hrb, hrem, hmb, hrisk, hrange]
      · exact ih1 r hr
    · rw [hnames, List.nodup_cons]
      refine ⟨?_, ih2⟩
      intro hmem
      have h3 := ih3 name hmem
      rw [hasKey_append] at h3
      have : hasKey [(name, PolicyEntry.mk name reason remediation n)] name = true := by
        simp [hasKey]
      simp [this] at h3
    · rw [hnames]
      intro n2 hn2
      rcases List.mem_cons.mp hn2 with rfl | hn2
      · exact Bool.eq_false_iff.mpr hkey
      · have h3 := ih3 n2 hn2
        rw [hasKey_append] at h3
        exact (Bool.or_eq_false_iff.mp h3).1
    · rw [hnames, ih4]
      simp

theorem load_entry_map_aux_error_kind (sec : String) :
    ∀ (entries : List JValue) (acc : List (String × PolicyEntry)),
      (∃ res, load_entry_map_aux sec entries acc = .ok res) ∨
      (∃ msg, load_entry_map_aux sec entries acc = .error (.policyError msg))
  | [], acc => Or.inl ⟨acc, rfl⟩
  | raw :: rest, acc => by
    by_cases hobj : isJObj raw
    swap
    · exact Or.inr ⟨_, by simp only [load_entry_map_aux]; rw [if_pos (by simp [hobj])]⟩
    rcases hname : getStrField raw "name" with _ | name
    · exact Or.inr ⟨_, by
        simp only [load_entry_map_aux]
        rw [if_neg (by simp [hobj]), hname]⟩
    rcases hreason : getStrField raw "reason" with _ | reason
    · exact Or.inr ⟨_, by
        simp only [load_entry_map_aux]
        rw [if_neg (by simp [hobj]), hname, hreason]⟩
    by_cases hrb : (stripChars reason.data).isEmpty
    · exact Or.inr ⟨_, by
        simp only [load_entry_map_aux]
        rw [if_neg (by simp [hobj]), hname, hreason]
        dsimp only
        rw [if_pos hrb]⟩
    rcases hrem : getStrField raw "remediation" with _ | remediation
    · exact Or.inr ⟨_, by
        simp only [load_entry_map_aux]
        rw [if_neg (by simp [hobj]), hname, hreason]
        dsimp only
        rw [if_neg hrb, hrem]⟩
    by_cases hmb : (stripChars remediation.data).isEmpty
    · exact Or.inr ⟨_, by
        simp only [load_entry_map_aux]
        rw [if_neg (by simp [hobj]), hname, hreason]
        dsimp only
        rw [if_neg hrb, hrem]
        dsimp only
        rw [if_pos hmb]⟩
    rcases hrisk : (raw.get "risk_score").bind JValue.asInt with _ | n
    · exact Or.inr ⟨_, by
        simp only [load_entry_map_aux]
        rw [if_neg (by simp [hobj]), hname, hreason]
        dsimp only
        rw [if_neg hrb, hrem]
        dsimp only
        rw [if_neg hmb, hrisk]⟩
    by_cases hrange : (0 ≤ n ∧ n ≤ 100)
    swap
    · exact Or.inr ⟨_, by
        simp only [load_entry_map_aux]
        rw [if_neg (by simp [hobj]), hname, hreason]
        dsimp only
        rw [if_neg hrb, hrem]
        dsimp only
        rw [if_neg hmb, hrisk]
        dsimp only
        rw [if_pos (by simp [hrange])]⟩
    by_cases hkey : hasKey acc name = true
    · exact Or.inr ⟨_, by
        simp only [load_entry_map_aux]
        rw [if_neg (by simp [hobj]), hname, hreason]
        dsimp only
        rw [if_neg hrb, hrem]
        dsimp only
        rw [if_neg hmb, hrisk]
        dsimp only
        rw [if_neg (by simp [hrange]), if_pos hkey]⟩
    have hred : load_entry_map_aux sec (raw :: rest) acc =
        load_entry_map_aux sec rest
          (acc ++ [(name, PolicyEntry.mk name reason remediation n)]) := by
      simp only [load_entry_map_aux]
      rw [if_neg (by simp [hobj]), hname, hreason]
      dsimp only
      rw [if_neg hrb, hrem]
      dsimp only
      rw [if_neg hmb, hrisk]
      dsimp only
      rw [if_neg (by simp [hrange]), if_neg hkey]
    rw [hred]
    exact load_entry_map_aux_error_kind sec rest _

theorem parse_iso8601_utc_ok_sound (fromIso : String → IsoParse) (raw : String)
    (t : Int) (h : parse_iso8601_utc fromIso raw = .ok t) :
    fromIso (zfix raw) = .aware t := by
  simp only [parse_iso8601_utc] at h
  rcases hfi : fromIso (zfix raw) with _ | t2 | t2 <;> rw [hfi] at h <;> simp at h
  rw [h]

theorem load_transitions_aux_ok_sound (fromIso : String → IsoParse) :
    ∀ (entries : List JValue) (acc res : List (String × Transition)),
      load_transitions_aux fromIso entries acc = .ok res →
      (∀ raw ∈ entries, transitionRawOk fromIso raw = true) ∧
      (transitionCratesOf entries).Nodup ∧
      (∀ c ∈ transitionCratesOf entries, hasKey acc c = false) ∧
      res.map Prod.fst = acc.map Prod.fst ++ transitionCratesOf entries
  | [], acc, res, h => by
    simp only [load_transitions_aux, Except.ok.injEq] at h
    subst h
    simp [transitionCratesOf]
  | raw :: rest, acc, res, h => by
    simp only [load_transitions_aux] at h
    by_cases hobj : isJObj raw
    swap
    · simp [hobj] at h
    rcases hcrate : getStrField raw "crate" with _ | crate
    · simp [hobj, hcrate] at h
    rcases hstatus : getStrField raw "status" with _ | status
    · simp [hobj, hcrate, hstatus] at h
    by_cases hstat : (status = "active" ∨ status = "resolved")
    swap
    · simp [hobj, hcrate, hstatus, hstat] at h
    rcases howner : getStrField raw "owner" with _ | owner
    · simp [hobj, hcrate, hstatus, hstat, howner] at h
    by_cases hob : (stripChars owner.data).isEmpty
    · simp [hobj, hcrate, hstatus, hstat, howner, hob] at h
    rcases hri : getStrField raw "replacement_issue" with _ | issue
    · simp [hobj, hcrate, hstatus, hstat, howner, hob, hri] at h
    by_cases hrib : (stripChars issue.data).isEmpty
    · simp [hobj, hcrate, hstatus, hstat, howner, hob, hri, hrib] at h
    rcases hexp : getStrField raw "expires_at_utc" with _ | expires
    · simp [hobj, hcrate, hstatus, hstat, howner, hob, hri, hrib, hexp] at h
    rcases hpi : parse_iso8601_utc fromIso expires with e | t
    · simp [hobj, hcrate, hstatus, hstat, howner, hob, hri, hrib, hexp, hpi] at h
    rcases hnotes : ((raw.get "notes").getD (.jstr "")).asStr with _ | notes
    · simp [hobj, hcrate, hstatus, hstat, howner, hob, hri, hrib, hexp, hpi,
        hnotes] at h
    by_cases hkey : hasKey acc crate = true
    · simp [hobj, hcrate, hstatus, hstat, howner, hob, hri, hrib, hexp, hpi,
        hnotes, hkey] at h
    simp only [hobj, hcrate, hstatus, howner, hri, hexp, hpi, hnotes,
      Bool.not_true, if_false] at h
    rw [if_neg (show ¬((!decide (status = "active" ∨ status = "resolved")) = true)
      by simp [hstat])] at h
    rw [if_neg hob] at h
    rw [if_neg hrib] at h
    rw [if_neg hkey] at h
    obtain ⟨ih1, ih2, ih3, ih4⟩ := load_transitions_aux_ok_sound fromIso rest
      (acc ++ [(crate, Transition.mk crate status owner issue expires notes)]) res h
    have hcrates : transitionCratesOf (raw :: rest) =
        crate :: transitionCratesOf rest := by
      simp [transitionCratesOf, List.filterMap_cons, hcrate]
    refine ⟨?_, ?_, ?_, ?_⟩
    · intro r hr
      rcases List.mem_cons.mp hr with rfl | hr
      · have haware := parse_iso8601_utc_ok_sound fromIso expires t hpi
        simp [transitionRawOk, hobj, hcrate, hstatus, hstat, howner, hob, hri,
          hrib, hexp, haware, hnotes]
      · exact ih1 r hr
    · rw [hcrates, List.nodup_cons]
      refine ⟨?_, ih2⟩
      intro hmem
      have h3 := ih3 crate hmem
      rw [hasKey_append] at h3
      have : hasKey [(crate, Transition.mk crate status owner issue expires
          notes)] crate = true := by simp [hasKey]
      simp [this] at h3
    · rw [hcrates]
      intro c2 hc2
      rcases List.mem_cons.mp hc2 with rfl | hc2
      · exact Bool.eq_false_iff.mpr hkey
      · have h3 := ih3 c2 hc2
        rw [hasKey_append] at h3
        exact (Bool.or_eq_false_iff.mp h3).1
    · rw [hcrates, ih4]
      simp

theorem load_transitions_aux_error_kind (fromIso : String → IsoParse) :
    ∀ (entries : List JValue) (acc : List (String × Transition)),
      (∀ raw ∈ entries, ∀ s, getStrField raw "expires_at_utc" = some s →
        fromIso (zfix s) ≠ .invalid) →
      (∃ res, load_transitions_aux fromIso entries acc = .ok res) ∨
      (∃ msg, load_transitions_aux fromIso entries acc = .error (.policyError msg))
  | [], acc, _ => Or.inl ⟨acc, rfl⟩
  | raw :: rest, acc, hts => by
    by_cases hobj : isJObj raw
    swap
    · exact Or.inr ⟨_, by
        simp only [load_transitions_aux]
        rw [if_pos (by simp [hobj])]⟩
    rcases hcrate : getStrField raw "crate" with _ | crate
    · exact Or.inr ⟨_, by
        simp only [load_transitions_aux]
        rw [if_neg (by simp [hobj]), hcrate]⟩
    rcases hstatus : getStrField raw "status" with _ | status
    · exact Or.inr ⟨_, by
        simp only [load_transitions_aux]
        rw [if_neg (by simp [hobj]), hcrate]
        dsimp only
        rw [hstatus]⟩
    by_cases hstat : (status = "active" ∨ status = "resolved")
    swap
    · exact Or.inr ⟨_, by
        simp only [load_transitions_aux]
        rw [if_neg (by simp [hobj]), hcrate]
        dsimp only
        rw [hstatus]
        dsimp only
        rw [if_pos (by simp [hstat])]⟩
    rcases howner : getStrField raw "owner" with _ | owner
    · exact Or.inr ⟨_, by
        simp only [load_transitions_aux]
        rw [if_neg (by simp [hobj]), hcrate]
        dsimp only
        rw [hstatus]
        dsimp only
        rw [if_neg (show ¬((!decide (status = "active" ∨ status = "resolved")) =
          true) by simp [hstat]), howner]⟩
    by_cases hob : (stripChars owner.data).isEmpty
    · exact Or.inr ⟨_, by
        simp only [load_transitions_aux]
        rw [if_neg (by simp [hobj]), hcrate]
        dsimp only
        rw [hstatus]
        dsimp only
        rw [if_neg (show ¬((!decide (status = "active" ∨ status = "resolved")) =
          true) by simp [hstat]), howner]
        dsimp only
        rw [if_pos hob]⟩
    rcases hri : getStrField raw "replacement_issue" with _ | issue
    · exact Or.inr ⟨_, by
        simp only [load_transitions_aux]
        rw [if_neg (by simp [hobj]), hcrate]
        dsimp only
        rw [hstatus]
        dsimp only
        rw [if_neg (show ¬((!decide (status = "active" ∨ status = "resolved")) =
          true) by simp [hstat]), howner]
        dsimp only
        rw [if_neg hob, hri]⟩
    by_cases hrib : (stripChars issue.data).isEmpty
    · exact Or.inr ⟨_, by
        simp only [load_transitions_aux]
        rw [if_neg (by simp [hobj]), hcrate]
        dsimp only
        rw [hstatus]
        dsimp only
        rw [if_neg (show ¬((!decide (status = "active" ∨ status = "resolved")) =
          true) by simp [hstat]), howner]
        dsimp only
        rw [if_neg hob, hri]
        dsimp only
        rw [if_pos hrib]⟩
    rcases hexp : getStrField raw "expires_at_utc" with _ | expires
    · exact Or.inr ⟨_, by
        simp only [load_transitions_aux]
        rw [if_neg (by simp [hobj]), hcrate]
        dsimp only
        rw [hstatus]
        dsimp only
        rw [if_neg (show ¬((!decide (status = "active" ∨ status = "resolved")) =
          true) by simp [hstat]), howner]
        dsimp only
        rw [if_neg hob, hri]
        dsimp only
        rw [if_neg hrib, hexp]⟩
    rcases hfi : fromIso (zfix expires) with _ | t | t
    · exact absurd hfi (hts raw (List.mem_cons_self raw rest) expires hexp)
    · exact Or.inr ⟨_, by
        simp only [load_transitions_aux]
        rw [if_neg (by simp [hobj]), hcrate]
        dsimp only
        rw [hstatus]
        dsimp only
        rw [if_neg (show ¬((!decide (status = "active" ∨ status = "resolved")) =
          true) by simp [hstat]), howner]
        dsimp only
        rw [if_neg hob, hri]
        dsimp only
        rw [if_neg hrib, hexp]
        dsimp only
        rw [show parse_iso8601_utc fromIso expires = .error (.policyError
          ("timestamp missing timezone: " ++ expires)) from
          by simp [parse_iso8601_utc, hfi]]⟩
    have hred : ∀ (k : Except PError (List (String × Transition)) →
        Except PError (List (String × Transition))), True := fun _ => trivial
    rcases hnotes : ((raw.get "notes").getD (.jstr "")).asStr with _ | notes
    · exact Or.inr ⟨_, by
        simp only [load_transitions_aux]
        rw [if_neg (by simp [hobj]), hcrate]
        dsimp only
        rw [hstatus]
        dsimp only
        rw [if_neg (show ¬((!decide (status = "active" ∨ status = "resolved")) =
          true) by simp [hstat]), howner]
        dsimp only
        rw [if_neg hob, hri]
        dsimp only
        rw [if_neg hrib, hexp]
        dsimp only
        rw [show parse_iso8601_utc fromIso expires = .ok t from
          by simp [parse_iso8601_utc, hfi]]
        dsimp only
        rw [hnotes]⟩
    by_cases hkey : hasKey acc crate = true
    · exact Or.inr ⟨_, by
        simp only [load_transitions_aux]
        rw [if_neg (by simp [hobj]), hcrate]
        dsimp only
        rw [hstatus]
        dsimp only
        rw [if_neg (show ¬((!decide (status = "active" ∨ status = "resolved")) =
          true) by simp [hstat]), howner]
        dsimp only
        rw [if_neg hob, hri]
        dsimp only
        rw [if_neg hrib, hexp]
        dsimp only
        rw [show parse_iso8601_utc fromIso expires = .ok t from
          by simp [parse_iso8601_utc, hfi]]
        dsimp only
        rw [hnotes]
        dsimp only
        rw [if_pos hkey]⟩
    have hstep : load_transitions_aux fromIso (raw :: rest) acc =
        load_transitions_aux fromIso rest
          (acc ++ [(crate, Transition.mk crate status owner issue expires
            notes)]) := by
      simp only [load_transitions_aux]
      rw [if_neg (by simp [hobj]), hcrate]
      dsimp only
      rw [hstatus]
      dsimp only
      rw [if_neg (show ¬((!decide (status = "active" ∨ status = "resolved")) =
        true) by simp [hstat]), howner]
      dsimp only
      rw [if_neg hob, hri]
      dsimp only
      rw [if_neg hrib, hexp]
      dsimp only
      rw [show parse_iso8601_utc fromIso expires = .ok t from
        by simp [parse_iso8601_utc, hfi]]
      dsimp only
      rw [hnotes]
      dsimp only
      rw [if_neg hkey]
    rw [hstep]
    exact load_transitions_aux_error_kind fromIso rest _
      (fun r hr => hts r (List.mem_cons_of_mem raw hr))

theorem validate_policy_cross_refs_ok_sound
    (fm cm : List (String × PolicyEntry)) (tm : List (String × Transition))
    (h : validate_policy_cross_refs fm cm tm = .ok ()) :
    (∀ p ∈ fm, hasKey cm p.1 = false) ∧
    (∀ p ∈ tm, hasKey fm p.1 = true ∨ hasKey cm p.1 = true) := by
  simp only [validate_policy_cross_refs] at h
  by_cases h1 : fm.any (fun p => hasKey cm p.1) = true
  · rw [if_pos h1] at h
    exact absurd h (by simp)
  rw [if_neg h1] at h
  refine ⟨?_, ?_⟩
  · intro p hp
    have := List.any_eq_false.mp (Bool.eq_false_iff.mpr h1) p hp
    exact Bool.eq_false_iff.mpr this
  · rcases hf : tm.find? (fun p => !hasKey fm p.1 && !hasKey cm p.1)
      with _ | p2 <;> rw [hf] at h
    swap
    · exact absurd h (by simp)
    intro p hp
    have := List.find?_eq_none.mp hf p hp
    rcases Bool.not_eq_true _ ▸ this with hand
    rw [Bool.and_eq_false_iff] at hand
    rcases hand with hh | hh <;> simp at hh
    · exact Or.inl hh
    · exact Or.inr hh

theorem validate_policy_cross_refs_error_kind
    (fm cm : List (String × PolicyEntry)) (tm : List (String × Transition)) :
    validate_policy_cross_refs fm cm tm = .ok () ∨
    ∃ msg, validate_policy_cross_refs fm cm tm = .error (.policyError msg) := by
  simp only [validate_policy_cross_refs]
  by_cases h1 : fm.any (fun p => hasKey cm p.1) = true
  · rw [if_pos h1]
    exact Or.inr ⟨_, rfl⟩
  rw [if_neg h1]
  rcases hf : tm.find? (fun p => !hasKey fm p.1 && !hasKey cm p.1)
      with _ | p2 <;> rw [hf]
  · exact Or.inl rfl
  · exact Or.inr ⟨_, rfl⟩

theorem load_policy_error_kind (doc : JValue) :
    load_policy doc = .ok doc ∨
    ∃ msg, load_policy doc = .error (.policyError msg) := by
  unfold load_policy
  split_ifs <;> first
    | exact Or.inl rfl
    | exact Or.inr ⟨_, rfl⟩

theorem load_policy_bundle_ok_sound (fromIso : String → IsoParse) (doc : JValue)
    (fm cm : List (String × PolicyEntry)) (tm : List (String × Transition))
    (h : load_policy_bundle fromIso doc = .ok (fm, cm, tm)) :
    load_policy doc = .ok doc ∧
    load_entry_map (listField doc "forbidden_crates") "forbidden_crates" = .ok fm ∧
    load_entry_map (listField doc "conditional_crates") "conditional_crates" = .ok cm ∧
    load_transitions fromIso (listField doc "transitions") = .ok tm ∧
    validate_policy_cross_refs fm cm tm = .ok () := by
  simp only [load_policy_bundle] at h
  rcases hpol : load_policy doc with e | policy <;> rw [hpol] at h
  · exact absurd h (by simp)
  have hpd : policy = doc := by
    rcases load_policy_error_kind doc with h2 | ⟨msg, h2⟩ <;> rw [h2] at hpol
    · exact (Except.ok.inj hpol).symm
    · exact absurd hpol (by simp)
  subst hpd
  dsimp only at h
  rcases hfm : load_entry_map (listField policy "forbidden_crates")
      "forbidden_crates" with e | fm2 <;> rw [hfm] at h
  · exact absurd h (by simp)
  dsimp only at h
  rcases hcm : load_entry_map (listField policy "conditional_crates")
      "conditional_crates" with e | cm2 <;> rw [hcm] at h
  · exact absurd h (by simp)
  dsimp only at h
  rcases htm : load_transitions fromIso (listField policy "transitions")
      with e | tm2 <;> rw [htm] at h
  · exact absurd h (by simp)
  dsimp only at h
  rcases hv : validate_policy_cross_refs fm2 cm2 tm2 with e | u <;> rw [hv] at h
  · exact absurd h (by simp)
  dsimp only at h
  obtain ⟨hfm2, hcm2, htm2⟩ : fm2 = fm ∧ cm2 = cm ∧ tm2 = tm := by
    simpa using Except.ok.inj h
  subst hfm2
  subst hcm2
  subst htm2
  cases u
  exact ⟨rfl, rfl, rfl, rfl, hv⟩

theorem load_policy_bundle_error_kind (fromIso : String → IsoParse)
    (doc : JValue)
    (hts : ∀ raw ∈ listField doc "transitions", ∀ s,
      getStrField raw "expires_at_utc" = some s → fromIso (zfix s) ≠ .invalid) :
    (∃ maps, load_policy_bundle fromIso doc = .ok maps) ∨
    (∃ msg, load_policy_bundle fromIso doc = .error (.policyError msg)) := by
  rcases load_policy_error_kind doc with hpol | ⟨msg, hpol⟩
  swap
  · exact Or.inr ⟨msg, by simp only [load_policy_bundle]; rw [hpol]⟩
  rcases load_entry_map_aux_error_kind "forbidden_crates"
      (listField doc "forbidden_crates") [] with ⟨fm, hfm⟩ | ⟨msg, hfm⟩
  swap
  · exact Or.inr ⟨msg, by
      simp only [load_policy_bundle]
      rw [hpol]
      dsimp only
      rw [show load_entry_map (listField doc "forbidden_crates")
        "forbidden_crates" = .error (.policyError msg) from hfm]⟩
  rcases load_entry_map_aux_error_kind "conditional_crates"
      (listField doc "conditional_crates") [] with ⟨cm, hcm⟩ | ⟨msg, hcm⟩
  swap
  · exact Or.inr ⟨msg, by
      simp only [load_policy_bundle]
      rw [hpol]
      dsimp only
      rw [show load_entry_map (listField doc "forbidden_crates")
        "forbidden_crates" = .ok fm from hfm]
      dsimp only
      rw [show load_entry_map (listField doc "conditional_crates")
        "conditional_crates" = .error (.policyError msg) from hcm]⟩
  rcases load_transitions_aux_error_kind fromIso (listField doc "transitions")
      [] hts with ⟨tm, htm⟩ | ⟨msg, htm⟩
  swap
  · exact Or.inr ⟨msg, by
      simp only [load_policy_bundle]
      rw [hpol]
      dsimp only
      rw [show load_entry_map (listField doc "forbidden_crates")
        "forbidden_crates" = .ok fm from hfm]
      dsimp only
      rw [show load_entry_map (listField doc "conditional_crates")
        "conditional_crates" = .ok cm from hcm]
      dsimp only
      rw [show load_transitions fromIso (listField doc "transitions") =
        .error (.policyError msg) from htm]⟩
  rcases validate_policy_cross_refs_error_kind fm cm tm with hv | ⟨msg, hv⟩
  · exact Or.inl ⟨(fm, cm, tm), by
      simp only [load_policy_bundle]
      rw [hpol]
      dsimp only
      rw [show load_entry_map (listField doc "forbidden_crates")
        "forbidden_crates" = .ok fm from hfm]
      dsimp only
      rw [show load_entry_map (listField doc "conditional_crates")
        "conditional_crates" = .ok cm from hcm]
      dsimp only
      rw [show load_transitions fromIso (listField doc "transitions") =
        .ok tm from htm]
      dsimp only
      rw [hv]⟩
  · exact Or.inr ⟨msg, by
      simp only [load_policy_bundle]
      rw [hpol]
      dsimp only
      rw [show load_entry_map (listField doc "forbidden_crates")
        "forbidden_crates" = .ok fm from hfm]
      dsimp only
      rw [show load_entry_map (listField doc "conditional_crates")
        "conditional_crates" = .ok cm from hcm]
      dsimp only
      rw [show load_transitions fromIso (listField doc "transitions") =
        .ok tm from htm]
      dsimp only
      rw [hv]⟩

theorem load_policy_bundle_error_of_not_ok (fromIso : String → IsoParse)
    (doc : JValue)
    (hts : ∀ raw ∈ listField doc "transitions", ∀ s,
      getStrField raw "expires_at_utc" = some s → fromIso (zfix s) ≠ .invalid)
    (hnot : ∀ fm cm tm, load_policy_bundle fromIso doc = .ok (fm, cm, tm) → False) :
    ∃ msg, load_policy_bundle fromIso doc = .error (.policyError msg) := by
  rcases load_policy_bundle_error_kind fromIso doc hts with ⟨⟨fm, cm, tm⟩, hb⟩ | good
  · exact absurd hb (hnot fm cm tm)
  · exact good

/-- C6: policy loading rejects with a `PolicyError` configuration error —
and, the result being a single `Except` value, no partial policy state
survives — whenever the schema marker is absent or unrecognized; a crate
section carries a duplicate name, a missing or blank reason or remediation,
or a risk score outside `[0, 100]`; a name appears in both maps; a
transition has a timezone-naive expiry, a status other than
`active`/`resolved`, a duplicated crate, or a crate in neither map.  On
success the two maps are disjoint and every transition's crate belongs to
their union.  The hypothesis `hts` says every transition expiry string is
at least parseable, so the only timestamp defect in play is the claimed
missing timezone. -/
theorem C6_policy_loading_rejections (fromIso : String → IsoParse) (doc : JValue)
    (hts : ∀ raw ∈ listField doc "transitions", ∀ s,
      getStrField raw "expires_at_utc" = some s → fromIso (zfix s) ≠ .invalid) :
    (schemaVersionOk doc = false →
      ∃ msg, load_policy_bundle fromIso doc = .error (.policyError msg)) ∧
    (¬ (entryNamesOf (listField doc "forbidden_crates")).Nodup →
      ∃ msg, load_policy_bundle fromIso doc = .error (.policyError msg)) ∧
    (¬ (entryNamesOf (listField doc "conditional_crates")).Nodup →
      ∃ msg, load_policy_bundle fromIso doc = .error (.policyError msg)) ∧
    ((∃ raw ∈ listField doc "forbidden_crates" ++ listField doc "conditional_crates",
        getStrField raw "reason" = none ∨
        (∃ r, getStrField raw "reason" = some r ∧ (stripChars r.data).isEmpty = true) ∨
        getStrField raw "remediation" = none ∨
        (∃ r, getStrField raw "remediation" = some r ∧
          (stripChars r.data).isEmpty = true)) →
      ∃ msg, load_policy_bundle fromIso doc = .error (.policyError msg)) ∧
    ((∃ raw ∈ listField doc "forbidden_crates" ++ listField doc "conditional_crates",
        ∃ n, (raw.get "risk_score").bind JValue.asInt = some n ∧
          (n < 0 ∨ 100 < n)) →
      ∃ msg, load_policy_bundle fromIso doc = .error (.policyError msg)) ∧
    ((∃ n, n ∈ entryNamesOf (listField doc "forbidden_crates") ∧
        n ∈ entryNamesOf (listField doc "conditional_crates")) →
      ∃ msg, load_policy_bundle fromIso doc = .error (.policyError msg)) ∧
    ((∃ raw ∈ listField doc "transitions", ∃ s t,
        getStrField raw "expires_at_utc" = some s ∧ fromIso (zfix s) = .naive t) →
      ∃ msg, load_policy_bundle fromIso doc = .error (.policyError msg)) ∧
    ((∃ raw ∈ listField doc "transitions", ∃ s,
        getStrField raw "status" = some s ∧ s ≠ "active" ∧ s ≠ "resolved") →
      ∃ msg, load_policy_bundle fromIso doc = .error (.policyError msg)) ∧
    (¬ (transitionCratesOf (listField doc "transitions")).Nodup →
      ∃ msg, load_policy_bundle fromIso doc = .error (.policyError msg)) ∧
    ((∃ raw ∈ listField doc "transitions", ∃ c, getStrField raw "crate" = some c ∧
        c ∉ entryNamesOf (listField doc "forbidden_crates") ∧
        c ∉ entryNamesOf (listField doc "conditional_crates")) →
      ∃ msg, load_policy_bundle fromIso doc = .error (.policyError msg)) ∧
    (∀ fm cm tm, load_policy_bundle fromIso doc = .ok (fm, cm, tm) →
      (∀ p ∈ fm, hasKey cm p.1 = false) ∧
      (∀ p ∈ tm, hasKey fm p.1 = true ∨ hasKey cm p.1 = true)) := by
  refine ⟨?_, ?_, ?_, ?_, ?_, ?_, ?_, ?_, ?_, ?_, ?_⟩
  · intro hschema
    refine load_policy_bundle_error_of_not_ok fromIso doc hts ?_
    intro fm cm tm hok
    obtain ⟨hpol, _, _, _, _⟩ := load_policy_bundle_ok_sound fromIso doc fm cm tm hok
    rw [load_policy, if_pos (by simp [hschema])] at hpol
    exact absurd hpol (by simp)
  · intro hdup
    refine load_policy_bundle_error_of_not_ok fromIso doc hts ?_
    intro fm cm tm hok
    obtain ⟨_, hfm, _, _, _⟩ := load_policy_bundle_ok_sound fromIso doc fm cm tm hok
    obtain ⟨_, hnodup, _, _⟩ := load_entry_map_aux_ok_sound "forbidden_crates"
      (listField doc "forbidden_crates") [] fm hfm
    exact hdup hnodup
  · intro hdup
    refine load_policy_bundle_error_of_not_ok fromIso doc hts ?_
    intro fm cm tm hok
    obtain ⟨_, _, hcm, _, _⟩ := load_policy_bundle_ok_sound fromIso doc fm cm tm hok
    obtain ⟨_, hnodup, _, _⟩ := load_entry_map_aux_ok_sound "conditional_crates"
      (listField doc "conditional_crates") [] cm hcm
    exact hdup hnodup
  · rintro ⟨raw, hmem, hbad⟩
    refine load_policy_bundle_error_of_not_ok fromIso doc hts ?_
    intro fm cm tm hok
    obtain ⟨_, hfm, hcm, _, _⟩ := load_policy_bundle_ok_sound fromIso doc fm cm tm hok
    obtain ⟨hfall, _, _, _⟩ := load_entry_map_aux_ok_sound "forbidden_crates"
      (listField doc "forbidden_crates") [] fm hfm
    obtain ⟨hcall, _, _, _⟩ := load_entry_map_aux_ok_sound "conditional_crates"
      (listField doc "conditional_crates") [] cm hcm
    have hok2 : entryRawOk raw = true := by
      rcases List.mem_append.mp hmem with hmem2 | hmem2
      · exact hfall raw hmem2
      · exact hcall raw hmem2
    rcases hbad with hnone | ⟨r, hr, hblank⟩ | hnone | ⟨r, hr, hblank⟩
    · simp [entryRawOk, hnone] at hok2
    · simp [entryRawOk, hr, hblank] at hok2
    · simp [entryRawOk, hnone] at hok2
    · simp [entryRawOk, hr, hblank] at hok2
  · rintro ⟨raw, hmem, n, hn, hrange⟩
    refine load_policy_bundle_error_of_not_ok fromIso doc hts ?_
    intro fm cm tm hok
    obtain ⟨_, hfm, hcm, _, _⟩ := load_policy_bundle_ok_sound fromIso doc fm cm tm hok
    obtain ⟨hfall, _, _, _⟩ := load_entry_map_aux_ok_sound "forbidden_crates"
      (listField doc "forbidden_crates") [] fm hfm
    obtain ⟨hcall, _, _, _⟩ := load_entry_map_aux_ok_sound "conditional_crates"
      (listField doc "conditional_crates") [] cm hcm
    have hok2 : entryRawOk raw = true := by
      rcases List.mem_append.mp hmem with hmem2 | hmem2
      · exact hfall raw hmem2
      · exact hcall raw hmem2
    have : ¬ (0 ≤ n ∧ n ≤ 100) := by omega
    simp [entryRawOk, hn, this] at hok2
  · rintro ⟨n, hnf, hnc⟩
    refine load_policy_bundle_error_of_not_ok fromIso doc hts ?_
    intro fm cm tm hok
    obtain ⟨_, hfm, hcm, _, hv⟩ := load_policy_bundle_ok_sound fromIso doc fm cm tm hok
    obtain ⟨_, _, _, hfkeys⟩ := load_entry_map_aux_ok_sound "forbidden_crates"
      (listField doc "forbidden_crates") [] fm hfm
    obtain ⟨_, _, _, hckeys⟩ := load_entry_map_aux_ok_sound "conditional_crates"
      (listField doc "conditional_crates") [] cm hcm
    obtain ⟨hdisj, _⟩ := validate_policy_cross_refs_ok_sound fm cm tm hv
    have h1 : n ∈ fm.map Prod.fst := by rw [hfkeys]; simpa using hnf
    have h2 : n ∈ cm.map Prod.fst := by rw [hckeys]; simpa using hnc
    obtain ⟨p, hp, hpn⟩ := List.mem_map.mp h1
    have h3 := hdisj p hp
    rw [hpn] at h3
    rw [← hasKey_iff_mem] at h2
    simp [h3] at h2
  · rintro ⟨raw, hmem, s, t, hs, hnaive⟩
    refine load_policy_bundle_error_of_not_ok fromIso doc hts ?_
    intro fm cm tm hok
    obtain ⟨_, _, _, htm, _⟩ := load_policy_bundle_ok_sound fromIso doc fm cm tm hok
    obtain ⟨htall, _, _, _⟩ := load_transitions_aux_ok_sound fromIso
      (listField doc "transitions") [] tm htm
    have hok2 := htall raw hmem
    simp [transitionRawOk, hs, hnaive] at hok2
  · rintro ⟨raw, hmem, s, hs, hne1, hne2⟩
    refine load_policy_bundle_error_of_not_ok fromIso doc hts ?_
    intro fm cm tm hok
    obtain ⟨_, _, _, htm, _⟩ := load_policy_bundle_ok_sound fromIso doc fm cm tm hok
    obtain ⟨htall, _, _, _⟩ := load_transitions_aux_ok_sound fromIso
      (listField doc "transitions") [] tm htm
    have hok2 := htall raw hmem
    simp [transitionRawOk, hs, hne1, hne2] at hok2
  · intro hdup
    refine load_policy_bundle_error_of_not_ok fromIso doc hts ?_
    intro fm cm tm hok
    obtain ⟨_, _, _, htm, _⟩ := load_policy_bundle_ok_sound fromIso doc fm cm tm hok
    obtain ⟨_, hnodup, _, _⟩ := load_transitions_aux_ok_sound fromIso
      (listField doc "transitions") [] tm htm
    exact hdup hnodup
  · rintro ⟨raw, hmem, c, hc, hnf, hnc⟩
    refine load_policy_bundle_error_of_not_ok fromIso doc hts ?_
    intro fm cm tm hok
    obtain ⟨_, hfm, hcm, htm, hv⟩ := load_policy_bundle_ok_sound fromIso doc fm cm tm hok
    obtain ⟨_, _, _, hfkeys⟩ := load_entry_map_aux_ok_sound "forbidden_crates"
      (listField doc "forbidden_crates") [] fm hfm
    obtain ⟨_, _, _, hckeys⟩ := load_entry_map_aux_ok_sound "conditional_crates"
      (listField doc "conditional_crates") [] cm hcm
    obtain ⟨_, _, _, htkeys⟩ := load_transitions_aux_ok_sound fromIso
      (listField doc "transitions") [] tm htm
    obtain ⟨_, hunion⟩ := validate_policy_cross_refs_ok_sound fm cm tm hv
    have hcmem : c ∈ tm.map Prod.fst := by
      rw [htkeys]
      simp only [List.map_nil, List.nil_append, transitionCratesOf]
      exact List.mem_filterMap.mpr ⟨raw, hmem, hc⟩
    obtain ⟨p, hp, hpc⟩ := List.mem_map.mp hcmem
    rcases hunion p hp with hk | hk
    · rw [hpc, hasKey_iff_mem, hfkeys] at hk
      exact hnf (by simpa using hk)
    · rw [hpc, hasKey_iff_mem, hckeys] at hk
      exact hnc (by simpa using hk)
  · intro fm cm tm hok
    obtain ⟨_, _, _, _, hv⟩ := load_policy_bundle_ok_sound fromIso doc fm cm tm hok
    exact validate_policy_cross_refs_ok_sound fm cm tm hv

/-- Closed instance of `C6_policy_loading_rejections`: each bad document is
rejected with a `PolicyError`, and the valid document yields disjoint maps
whose transitions all reference managed crates. -/
theorem C6_policy_loading_rejections_witness :
    (∃ msg, load_policy_bundle sampleFromIso .jnull = .error (.policyError msg)) ∧
    (∃ msg, load_policy_bundle sampleFromIso c6DocDupF = .error (.policyError msg)) ∧
    (∃ msg, load_policy_bundle sampleFromIso c6DocDupC = .error (.policyError msg)) ∧
    (∃ msg, load_policy_bundle sampleFromIso c6DocBlank = .error (.policyError msg)) ∧
    (∃ msg, load_policy_bundle sampleFromIso c6DocRisk = .error (.policyError msg)) ∧
    (∃ msg, load_policy_bundle sampleFromIso c6DocOverlap = .error (.policyError msg)) ∧
    (∃ msg, load_policy_bundle sampleFromIso c6DocNaive = .error (.policyError msg)) ∧
    (∃ msg, load_policy_bundle sampleFromIso c6DocStatus = .error (.policyError msg)) ∧
    (∃ msg, load_policy_bundle sampleFromIso c6DocDupT = .error (.policyError msg)) ∧
    (∃ msg, load_policy_bundle sampleFromIso c6DocDangling = .error (.policyError msg)) ∧
    ((∀ p ∈ [("tokio", PolicyEntry.mk "tokio" "r" "m" 9)],
        hasKey [("tower", PolicyEntry.mk "tower" "r" "m" 5)] p.1 = false) ∧
     (∀ p ∈ [("tower", Transition.mk "tower" "active" "o" "i"
          "2026-06-01T00:00:00Z" "")],
        hasKey [("tokio", PolicyEntry.mk "tokio" "r" "m" 9)] p.1 = true ∨
        hasKey [("tower", PolicyEntry.mk "tower" "r" "m" 5)] p.1 = true)) := by
  have hts0 : ∀ (d : JValue), listField d "transitions" = [] →
      ∀ raw ∈ listField d "transitions", ∀ s,
        getStrField raw "expires_at_utc" = some s →
        sampleFromIso (zfix s) ≠ .invalid := by
    intro d hd raw hmem
    rw [hd] at hmem
    exact absurd hmem (List.not_mem_nil raw)
  have htsNaive : ∀ raw ∈ listField c6DocNaive "transitions", ∀ s,
      getStrField raw "expires_at_utc" = some s →
      sampleFromIso (zfix s) ≠ .invalid := by
    intro raw hmem s hs
    rw [show listField c6DocNaive "transitions" =
      [.jobj [("expires_at_utc", .jstr "2026-07-01T00:00:00")]] from rfl,
      List.mem_singleton] at hmem
    subst hmem
    rw [show getStrField (JValue.jobj [("expires_at_utc",
      .jstr "2026-07-01T00:00:00")]) "expires_at_utc" =
      some "2026-07-01T00:00:00" from by decide] at hs
    cases hs
    decide
  have htsStatus : ∀ raw ∈ listField c6DocStatus "transitions", ∀ s,
      getStrField raw "expires_at_utc" = some s →
      sampleFromIso (zfix s) ≠ .invalid := by
    intro raw hmem s hs
    rw [show listField c6DocStatus "transitions" =
      [.jobj [("status", .jstr "weird")]] from rfl, List.mem_singleton] at hmem
    subst hmem
    rw [show getStrField (JValue.jobj [("status", .jstr "weird")])
      "expires_at_utc" = none from by decide] at hs
    exact Option.noConfusion hs
  have htsDupT : ∀ raw ∈ listField c6DocDupT "transitions", ∀ s,
      getStrField raw "expires_at_utc" = some s →
      sampleFromIso (zfix s) ≠ .invalid := by
    intro raw hmem s hs
    rw [show listField c6DocDupT "transitions" =
      [.jobj [("crate", .jstr "x")], .jobj [("crate", .jstr "x")]] from rfl] at hmem
    have hn : getStrField (JValue.jobj [("crate", .jstr "x")])
        "expires_at_utc" = none := by decide
    rcases List.mem_cons.mp hmem with rfl | hmem
    · rw [hn] at hs
      exact Option.noConfusion hs
    · rcases List.mem_singleton.mp hmem with rfl
      rw [hn] at hs
      exact Option.noConfusion hs
  have htsDangling : ∀ raw ∈ listField c6DocDangling "transitions", ∀ s,
      getStrField raw "expires_at_utc" = some s →
      sampleFromIso (zfix s) ≠ .invalid := by
    intro raw hmem s hs
    rw [show listField c6DocDangling "transitions" =
      [.jobj [("crate", .jstr "zzz")]] from rfl, List.mem_singleton] at hmem
    subst hmem
    rw [show getStrField (JValue.jobj [("crate", .jstr "zzz")])
      "expires_at_utc" = none from by decide] at hs
    exact Option.noConfusion hs
  have htsGood : ∀ raw ∈ listField c6DocGood "transitions", ∀ s,
      getStrField raw "expires_at_utc" = some s →
      sampleFromIso (zfix s) ≠ .invalid := by
    intro raw hmem s hs
    rw [show listField c6DocGood "transitions" =
      [.jobj [("crate", .jstr "tower"), ("status", .jstr "active"),
        ("owner", .jstr "o"), ("replacement_issue", .jstr "i"),
        ("expires_at_utc", .jstr "2026-06-01T00:00:00Z")]] from rfl,
      List.mem_singleton] at hmem
    subst hmem
    rw [show getStrField (JValue.jobj [("crate", .jstr "tower"),
      ("status", .jstr "active"), ("owner", .jstr "o"),
      ("replacement_issue", .jstr "i"),
      ("expires_at_utc", .jstr "2026-06-01T00:00:00Z")]) "expires_at_utc" =
      some "2026-06-01T00:00:00Z" from by decide] at hs
    cases hs
    decide
  refine ⟨?_, ?_, ?_, ?_, ?_, ?_, ?_, ?_, ?_, ?_, ?_⟩
  · exact (C6_policy_loading_rejections sampleFromIso .jnull
      (hts0 .jnull rfl)).1 (by decide)
  · exact (C6_policy_loading_rejections sampleFromIso c6DocDupF
      (hts0 c6DocDupF rfl)).2.1 (by decide)
  · exact (C6_policy_loading_rejections sampleFromIso c6DocDupC
      (hts0 c6DocDupC rfl)).2.2.1 (by decide)
  · exact (C6_policy_loading_rejections sampleFromIso c6DocBlank
      (hts0 c6DocBlank rfl)).2.2.2.1
      ⟨.jobj [("name", .jstr "x"), ("reason", .jstr " ")],
        List.mem_append_left _ (List.mem_singleton_self _),
        Or.inr (Or.inl ⟨" ", by decide, by decide⟩)⟩
  · exact (C6_policy_loading_rejections sampleFromIso c6DocRisk
      (hts0 c6DocRisk rfl)).2.2.2.2.1
      ⟨.jobj [("name", .jstr "x"), ("risk_score", .jint 101)],
        List.mem_append_left _ (List.mem_singleton_self _),
        101, by decide, Or.inr (by decide)⟩
  · exact (C6_policy_loading_rejections sampleFromIso c6DocOverlap
      (hts0 c6DocOverlap rfl)).2.2.2.2.2.1 ⟨"x", by decide, by decide⟩
  · exact (C6_policy_loading_rejections sampleFromIso c6DocNaive
      htsNaive).2.2.2.2.2.2.1
      ⟨.jobj [("expires_at_utc", .jstr "2026-07-01T00:00:00")],
        List.mem_singleton_self _, "2026-07-01T00:00:00", 50, by decide, by decide⟩
  · exact (C6_policy_loading_rejections sampleFromIso c6DocStatus
      htsStatus).2.2.2.2.2.2.2.1
      ⟨.jobj [("status", .jstr "weird")], List.mem_singleton_self _,
        "weird", by decide, by decide, by decide⟩
  · exact (C6_policy_loading_rejections sampleFromIso c6DocDupT
      htsDupT).2.2.2.2.2.2.2.2.1 (by decide)
  · exact (C6_policy_loading_rejections sampleFromIso c6DocDangling
      htsDangling).2.2.2.2.2.2.2.2.2.1
      ⟨.jobj [("crate", .jstr "zzz")], List.mem_singleton_self _,
        "zzz", by decide, by decide, by decide⟩
  · exact (C6_policy_loading_rejections sampleFromIso c6DocGood
      htsGood).2.2.2.2.2.2.2.2.2.2
      [("tokio", PolicyEntry.mk "tokio" "r" "m" 9)]
      [("tower", PolicyEntry.mk "tower" "r" "m" 5)]
      [("tower", Transition.mk "tower" "active" "o" "i"
        "2026-06-01T00:00:00Z" "")] (by decide)

end WasmDepPolicy
